import Mathlib

/-!
Shallow embedding of the Quant trading system (scorer, regime detector,
position risk engine) and proofs about the claims of its specification.

Numeric modelling: Python floats are modelled as rationals; where the code
calls a square root (`numpy.sqrt`, `pandas.std`, `252**0.5`) the embedding
threads an explicit square-root function `sq : ℚ → ℚ` so that all
definitions stay executable.  The one place where the exact real value of a
square root matters (the volatility stop-loss formula of claim C2) is
additionally stated over `ℝ` with `Real.sqrt` via a polymorphic definition.
-/

set_option autoImplicit false

namespace Quant

/-! ## Generic helpers shared by the embedded modules -/

/-- Mean of a list of rationals (`pandas` rolling mean over a full window,
    `sum / n`). -/
def listMean (xs : List ℚ) : ℚ := xs.sum / xs.length

/-- The last `n` elements of a list (a full rolling window ending at the
    final row, `iloc[-1]` of `rolling(n)`). -/
def lastN (n : Nat) (xs : List ℚ) : List ℚ := xs.drop (xs.length - n)

/-- The final element of a series (`iloc[-1]`); the embedding only uses it
    after a length guard, so the default value is never exercised. -/
def last1 (xs : List ℚ) : ℚ := xs.getLastD 0

/-- The second to last element of a series (`iloc[-2]`). -/
def last2 (xs : List ℚ) : ℚ := xs.dropLast.getLastD 0

/-- Python dict `.get(key, default)` over an association list. -/
def pyGet (r : List (String × ℚ)) (k : String) (d : ℚ) : ℚ :=
  match r.find? (fun kv => kv.1 == k) with
  | some kv => kv.2
  | none => d

/-- Python `int()` on a float: truncation toward zero. -/
def pyInt (q : ℚ) : ℤ := if 0 ≤ q then ⌊q⌋ else ⌈q⌉

/-- Daily percentage change of a close series with the leading `NaN`
    dropped (`pct_change().dropna()`). -/
def pctChange (closes : List ℚ) : List ℚ :=
  (closes.zip closes.tail).map (fun pc => (pc.2 - pc.1) / pc.1)

/-- Sample standard deviation (`pandas` `.std()`, `ddof=1`), with the square
    root supplied explicitly. -/
def sampleStd (sq : ℚ → ℚ) (xs : List ℚ) : ℚ :=
  let m := listMean xs
  sq ((xs.map (fun x => (x - m) ^ 2)).sum / (xs.length - 1 : ℕ))

/-- Population standard deviation (`numpy.std`, `ddof=0`). -/
def popStd (sq : ℚ → ℚ) (xs : List ℚ) : ℚ :=
  let m := listMean xs
  sq ((xs.map (fun x => (x - m) ^ 2)).sum / (xs.length : ℕ))

/-! ## TradingManager stop-loss calculation (claim C2)

`TradingManager._calculate_stop_loss(entry_price, volatility, method='percentage')`
and `TradingManager._calculate_stop_loss_for_sync(symbol, entry_price)`.
The definition is polymorphic over the number field so that the
`'volatility'` branch can also be read over `ℝ` with the genuine
`Real.sqrt`. -/

inductive StopMethod where
  | percentage
  | volatility
  | other
deriving Repr, DecidableEq

/-- `TradingManager._calculate_stop_loss`: the `method` parameter defaults
    to `'percentage'`, exactly as in the source. -/
def calculate_stop_loss {α : Type} [LinearOrderedField α] (sqrtF : α → α)
    (entry_price volatility : α) (method : StopMethod := .percentage) : α :=
  match method with
  | .percentage => entry_price * 0.92
  | .volatility =>
    let daily_vol := volatility / sqrtF 252
    entry_price * (1 - 2 * daily_vol)
  | .other => entry_price * 0.95

/-- `TradingManager._calculate_stop_loss_for_sync`: computes the trailing
    30-day realized annualized volatility from up to 90 days of closes and
    hands it to `_calculate_stop_loss` — without passing a `method`, so the
    `'percentage'` default applies there.  `data` is the fetched close
    series (`None` when the fetch failed). -/
def calculate_stop_loss_for_sync (sq : ℚ → ℚ) (data : Option (List ℚ))
    (entry_price : ℚ) : ℚ :=
  match data with
  | some closes =>
    if 30 ≤ closes.length then
      let returns := pctChange closes
      let volatility := sampleStd sq returns * sq 252
      calculate_stop_loss sq entry_price volatility
    else entry_price * 0.92
  | none => entry_price * 0.92

/-- Spec-side formula for the initial stop (`stop = entry × (1 − 2×daily_vol)`,
    `daily_vol = annualized_vol / √252`); identical to the never-selected
    `'volatility'` branch of the source read over the reals. -/
noncomputable def spec_initial_stop (entry_price volatility : ℝ) : ℝ :=
  calculate_stop_loss Real.sqrt entry_price volatility .volatility

/-- C2: the stop actually computed when opening or syncing a position is the
    flat `0.92 × entry_price` for every volatility input, because every call
    site leaves `method` at its `'percentage'` default; the spec value
    `95.96` (for entry 100, annualized volatility 0.32) is produced only by
    the never-selected `'volatility'` branch, which differs from what the
    code returns. -/
theorem stop_loss_always_flat_eight_percent :
    (∀ (sq : ℚ → ℚ) (e v : ℚ), calculate_stop_loss sq e v = e * 0.92)
    ∧ (∀ (sq : ℚ → ℚ) (data : Option (List ℚ)) (e : ℚ),
        calculate_stop_loss_for_sync sq data e = e * 0.92)
    ∧ |spec_initial_stop 100 0.32 - 95.96| < 1/100
    ∧ calculate_stop_loss Real.sqrt (100:ℝ) 0.32 ≠ spec_initial_stop 100 0.32 := by
  have hs : Real.sqrt 252 ^ 2 = 252 := Real.sq_sqrt (by norm_num)
  have hs0 : (0:ℝ) ≤ Real.sqrt 252 := Real.sqrt_nonneg _
  have hU : Real.sqrt 252 < 15.88 := by nlinarith [sq_nonneg (Real.sqrt 252 - 15.88)]
  have hL : (15.87:ℝ) < Real.sqrt 252 := by nlinarith
  have hpos : (0:ℝ) < Real.sqrt 252 := lt_trans (by norm_num) hL
  have hval : spec_initial_stop 100 0.32 = 100 - 64 / Real.sqrt 252 := by
    show (100:ℝ) * (1 - 2 * (0.32 / Real.sqrt 252)) = _
    ring
  have h1 : 64 / Real.sqrt 252 < 4.05 := by
    rw [div_lt_iff₀ hpos]; nlinarith
  have h2 : (4.03:ℝ) < 64 / Real.sqrt 252 := by
    rw [lt_div_iff₀ hpos]; nlinarith
  refine ⟨fun sq e v => rfl, ?_, ?_, ?_⟩
  · intro sq data e
    match data with
    | none => rfl
    | some closes =>
      by_cases h : 30 ≤ closes.length
      · simp only [calculate_stop_loss_for_sync, if_pos h]; rfl
      · simp only [calculate_stop_loss_for_sync, if_neg h]
  · rw [abs_lt, hval]; constructor <;> linarith
  · have : calculate_stop_loss Real.sqrt (100:ℝ) 0.32 = 92 := by
      show (100:ℝ) * 0.92 = 92; norm_num
    rw [this, hval]; intro hcontra; linarith

/-- Concrete instantiation of `stop_loss_always_flat_eight_percent`: with the
    identity in place of the square root, entry 100 and volatility 0.32 the
    computed stop is 92 (an 8% discount), not the spec's 95.96. -/
theorem stop_loss_always_flat_eight_percent_witness :
    calculate_stop_loss (fun q => q) (100:ℚ) 0.32 = 92 := by
  have h := stop_loss_always_flat_eight_percent.1 (fun q => q) 100 0.32
  rw [h]; norm_num

/-! ## Persistence-layer records (backend/models.py)

`Position`, `Trade` and `StopLossUpdate` rows.  `Trade.position_id` is a
nullable foreign key, hence `Option Nat`. -/

structure Pos where
  id : Nat
  symbol : String
  quantity : ℚ
  entry_price : ℚ
  current_stop_loss : Option ℚ
  is_active : Bool
deriving Repr, DecidableEq

structure BrokerPos where
  symbol : String
  quantity : ℚ
  avg_entry_price : ℚ
deriving Repr, DecidableEq

structure TradeRec where
  position_id : Option Nat
  symbol : String
  action : String
  quantity : ℚ
  price : ℚ
  reason : String
deriving Repr, DecidableEq

structure StopLossUpdateRec where
  position_id : Nat
  old_stop_loss : Option ℚ
  new_stop_loss : ℚ
  reason : String
  current_price : ℚ
deriving Repr, DecidableEq

/-! Python dicts as insertion-ordered association lists: a comprehension
`{key(x): x for x in l}` keeps the first insertion slot of a key and
overwrites its value (last occurrence wins). -/

def dictInsert {α : Type} (d : List (String × α)) (k : String) (v : α) :
    List (String × α) :=
  if d.any (fun kv => kv.1 == k) then
    d.map (fun kv => if kv.1 == k then (k, v) else kv)
  else d ++ [(k, v)]

def pyDict {α : Type} (key : α → String) (l : List α) : List (String × α) :=
  l.foldl (fun d a => dictInsert d (key a) a) []

def dictMem {α : Type} (d : List (String × α)) (k : String) : Bool :=
  d.any (fun kv => kv.1 == k)

def dictFind {α : Type} (d : List (String × α)) (k : String) : Option α :=
  (d.find? (fun kv => kv.1 == k)).map (fun kv => kv.2)

/-! ## TradingDAO.sync_positions_with_alpaca (backend/data_access.py)

Reconciliation of the locally stored positions against the broker's
reported list.  Mutations of session-held `Position` objects are modelled
by collecting them (keyed by primary key) and applying them to the state at
commit time; `session.flush()` assigns the next primary key to a freshly
added position. -/

structure SyncAcc where
  trades : List TradeRec
  newPositions : List Pos
  qtyUpdates : List (Nat × ℚ)
  nextId : Nat
deriving Repr, DecidableEq

/-- One iteration of the second reconciliation loop of
    `TradingDAO.sync_positions_with_alpaca` (over the broker dict). -/
def daoStep (local_symbols : List (String × Pos)) (acc : SyncAcc)
    (sb : String × BrokerPos) : SyncAcc :=
  match dictFind local_symbols sb.1 with
  | none =>
    -- broker position absent locally: create it (quantity truncated by
    -- `int(...)`), flush to obtain the id, record the SYNC_ADD trade
    let q : ℚ := (pyInt sb.2.quantity : ℤ)
    let pos : Pos :=
      { id := acc.nextId, symbol := sb.1, quantity := q,
        entry_price := sb.2.avg_entry_price, current_stop_loss := none,
        is_active := true }
    { acc with
      newPositions := acc.newPositions ++ [pos]
      trades := acc.trades ++
        [{ position_id := some acc.nextId, symbol := sb.1, action := "BUY",
           quantity := q, price := sb.2.avg_entry_price, reason := "SYNC_ADD" }]
      nextId := acc.nextId + 1 }
  | some lp =>
    -- symbol present in both: compare the raw broker quantity with the
    -- stored one
    if lp.quantity ≠ sb.2.quantity then
      let diff := sb.2.quantity - lp.quantity
      { acc with
        trades := acc.trades ++
          [{ position_id := some lp.id, symbol := sb.1,
             action := if 0 < diff then "BUY" else "SELL", quantity := |diff|,
             price := sb.2.avg_entry_price, reason := "SYNC_UPDATE" }]
        qtyUpdates := acc.qtyUpdates ++ [(lp.id, sb.2.quantity)] }
    else acc

/-- First reconciliation loop of `sync_positions_with_alpaca`: a SYNC_CLOSE
    trade for every locally active symbol absent from the broker dict. -/
def daoCloseTrades (local_symbols : List (String × Pos))
    (alpaca_symbols : List (String × BrokerPos)) : List TradeRec :=
  local_symbols.filterMap (fun sp =>
    if dictMem alpaca_symbols sp.1 then none
    else some { position_id := some sp.2.id, symbol := sp.1, action := "SELL",
                quantity := sp.2.quantity, price := sp.2.entry_price,
                reason := "SYNC_CLOSE" })

/-- Primary keys of the positions closed by the first loop. -/
def daoClosedIds (local_symbols : List (String × Pos))
    (alpaca_symbols : List (String × BrokerPos)) : List Nat :=
  local_symbols.filterMap (fun sp =>
    if dictMem alpaca_symbols sp.1 then none else some sp.2.id)

/-- Commit-time effect on one stored position row of the session mutations
    collected by the two loops (deactivation, quantity update, closing at
    reconciled quantity zero). -/
def daoApply (closedIds : List Nat) (qtyUpdates : List (Nat × ℚ)) (p : Pos) :
    Pos :=
  let p1 := if closedIds.contains p.id then { p with is_active := false } else p
  match qtyUpdates.find? (fun u => u.1 == p1.id) with
  | some u =>
    { p1 with quantity := u.2,
              is_active := if u.2 = 0 then false else p1.is_active }
  | none => p1

/-- `TradingDAO.sync_positions_with_alpaca`: returns the committed position
    table, the trades recorded by this run, and the next free primary key. -/
def sync_positions_with_alpaca (state : List Pos) (broker : List BrokerPos)
    (nextId : Nat) : List Pos × List TradeRec × Nat :=
  let local_positions := state.filter (fun p => p.is_active)
  let local_symbols := pyDict (fun p => p.symbol) local_positions
  let alpaca_symbols := pyDict (fun b => b.symbol) broker
  let acc := alpaca_symbols.foldl (daoStep local_symbols)
    { trades := [], newPositions := [], qtyUpdates := [], nextId := nextId }
  (state.map (daoApply (daoClosedIds local_symbols alpaca_symbols) acc.qtyUpdates)
     ++ acc.newPositions,
   daoCloseTrades local_symbols alpaca_symbols ++ acc.trades, acc.nextId)

/-! ## TradingManager._sync_positions_with_stop_losses (trading_manager.py)

The manager-side reconciliation.  Its quantity-mismatch block sits under
the `else` of `if stop_loss_price:` inside the branch for symbols absent
locally, so for symbols present on both sides nothing at all happens, and
the `else` itself indexes `local_symbols[symbol]` with a symbol that is not
a key — a `KeyError` caught by the surrounding handler, which rolls the
session back.  `history` stands for `framework.get_stock_data(symbol, 90)`. -/

structure MSyncAcc where
  trades : List TradeRec
  newPositions : List Pos
  stopUpdates : List StopLossUpdateRec
  nextId : Nat
deriving Repr, DecidableEq

def msyncLoop (sq : ℚ → ℚ) (history : String → Option (List ℚ))
    (local_symbols : List (String × Pos)) (acc : MSyncAcc) :
    List (String × BrokerPos) → Except String MSyncAcc
  | [] => .ok acc
  | sb :: rest =>
    if dictMem local_symbols sb.1 then
      -- symbol present in both: the source's update block is unreachable
      -- from here (it is nested in the other branch), so nothing happens
      msyncLoop sq history local_symbols acc rest
    else
      let entry_price := sb.2.avg_entry_price
      let stop_loss_price := calculate_stop_loss_for_sync sq (history sb.1) entry_price
      let pos : Pos :=
        { id := acc.nextId, symbol := sb.1, quantity := sb.2.quantity,
          entry_price := entry_price, current_stop_loss := some stop_loss_price,
          is_active := true }
      let trade : TradeRec :=
        { position_id := some acc.nextId, symbol := sb.1, action := "BUY",
          quantity := sb.2.quantity, price := entry_price, reason := "SYNC_ADD" }
      if stop_loss_price ≠ 0 then
        msyncLoop sq history local_symbols
          { acc with
            newPositions := acc.newPositions ++ [pos]
            trades := acc.trades ++ [trade]
            stopUpdates := acc.stopUpdates ++
              [{ position_id := acc.nextId, old_stop_loss := none,
                 new_stop_loss := stop_loss_price, reason := "INITIAL",
                 current_price := entry_price }]
            nextId := acc.nextId + 1 } rest
      else
        -- dead `else` of `if stop_loss_price:`: `local_symbols[symbol]`
        -- raises KeyError because the symbol is not a key here
        .error "KeyError"

/-- `TradingManager._sync_positions_with_stop_losses`: an exception rolls
    the whole session back (`.error`); on success it returns the committed
    positions, the trades and stop-loss updates recorded, and the next
    free primary key. -/
def sync_positions_with_stop_losses (sq : ℚ → ℚ)
    (history : String → Option (List ℚ)) (state : List Pos)
    (broker : List BrokerPos) (nextId : Nat) :
    Except String (List Pos × List TradeRec × List StopLossUpdateRec × Nat) :=
  let local_positions := state.filter (fun p => p.is_active)
  let local_symbols := pyDict (fun p => p.symbol) local_positions
  let alpaca_symbols := pyDict (fun b => b.symbol) broker
  let closeTrades := local_symbols.filterMap (fun sp =>
    if dictMem alpaca_symbols sp.1 then none
    else some { position_id := some sp.2.id, symbol := sp.1, action := "SELL",
                quantity := sp.2.quantity, price := sp.2.entry_price,
                reason := "SYNC_CLOSE" })
  let closedIds := local_symbols.filterMap (fun sp =>
    if dictMem alpaca_symbols sp.1 then none else some sp.2.id)
  match msyncLoop sq history local_symbols
      { trades := [], newPositions := [], stopUpdates := [], nextId := nextId }
      alpaca_symbols with
  | .error e => .error e
  | .ok acc =>
    let state' := state.map (fun p =>
      if closedIds.contains p.id then { p with is_active := false } else p)
    .ok (state' ++ acc.newPositions, closeTrades ++ acc.trades,
         acc.stopUpdates, acc.nextId)

/-! ## Trailing stops (TradingManager._update_trailing_stops with
TradingDAO.update_stop_loss) -/

/-- Truthiness test `not position.current_stop_loss or new_stop > stop`:
    a missing stop and a stored 0.0 are both falsy. -/
def trailCond (stop : Option ℚ) (new_stop : ℚ) : Bool :=
  match stop with
  | none => true
  | some s => s == 0 || new_stop > s

/-- One trailing-stop observation for a single position
    (`new_stop = price × (1 − trail_percent)` with the default 5%). -/
def trailStep (stop : Option ℚ) (price : ℚ) : Option ℚ :=
  let new_stop := price * (1 - 0.05)
  if trailCond stop new_stop then some new_stop else stop

/-- `TradingManager._update_trailing_stops`: one pass over the active
    positions with the fetched price dict.  Each raise goes through
    `TradingDAO.update_stop_loss`, which stores the new stop and appends
    one `StopLossUpdate` (reason TRAILING, `current_price` hardcoded 0);
    the per-id DAO update is applied to the position row itself, primary
    keys being unique. -/
def update_trailing_stops (state : List Pos)
    (current_prices : List (String × ℚ)) (trail_percent : ℚ := 0.05) :
    List Pos × List StopLossUpdateRec :=
  let active_positions := state.filter (fun p => p.is_active)
  let upds := active_positions.filterMap (fun p =>
    match dictFind current_prices p.symbol with
    | none => none
    | some price =>
      let new_stop := price * (1 - trail_percent)
      if trailCond p.current_stop_loss new_stop then
        some { position_id := p.id, old_stop_loss := p.current_stop_loss,
               new_stop_loss := new_stop, reason := "TRAILING",
               current_price := 0 }
      else none)
  let state' := state.map (fun p =>
    if p.is_active then
      match dictFind current_prices p.symbol with
      | none => p
      | some price =>
        let new_stop := price * (1 - trail_percent)
        if trailCond p.current_stop_loss new_stop then
          { p with current_stop_loss := some new_stop }
        else p
    else p)
  (state', upds)

/-- Order on stored stops: absent is below everything, present stops
    compare by value. -/
def stopLE : Option ℚ → Option ℚ → Bool
  | none, _ => true
  | some _, none => false
  | some a, some b => a ≤ b

/-! ## TradingDAO.create_position and TradingDAO.update_stop_loss (claim C8)

A minimal database model: `commitOk` stands for whether the final
`session.commit()` write succeeds; an exception rolls the whole session
back, leaving the store untouched. -/

structure Db where
  positions : List Pos
  trades : List TradeRec
  stop_updates : List StopLossUpdateRec
  nextPositionId : Nat
deriving Repr, DecidableEq

/-- `TradingDAO.create_position`: the `Position` is added to the session
    and the `Trade` is built from `position.id` with no flush in between,
    so the id is still unassigned (`None`) and the trade is recorded with a
    null `position_id`; a single commit then writes both (or a rollback
    writes neither). -/
def create_position (db : Db) (symbol : String) (quantity entry_price : ℚ)
    (stop_loss_price : Option ℚ) (commitOk : Bool) : Db × Option Nat :=
  let position : Pos :=
    { id := db.nextPositionId, symbol := symbol, quantity := quantity,
      entry_price := entry_price, current_stop_loss := stop_loss_price,
      is_active := true }
  let trade : TradeRec :=
    { position_id := none, symbol := symbol, action := "BUY",
      quantity := quantity, price := entry_price, reason := "NEW_POSITION" }
  if commitOk then
    ({ db with positions := db.positions ++ [position],
               trades := db.trades ++ [trade],
               nextPositionId := db.nextPositionId + 1 }, some position.id)
  else (db, none)

/-- `TradingDAO.update_stop_loss`: looks the position up by id and, in one
    commit, appends the `StopLossUpdate` audit row (old stop, new stop,
    reason, `current_price` hardcoded 0) and stores the new stop. -/
def update_stop_loss (db : Db) (position_id : Nat) (new_stop : ℚ)
    (reason : String) (commitOk : Bool) : Db :=
  match db.positions.find? (fun p => p.id == position_id) with
  | none => db
  | some p =>
    if commitOk then
      { db with
        positions := db.positions.map (fun q =>
          if q.id == position_id then { q with current_stop_loss := some new_stop }
          else q)
        stop_updates := db.stop_updates ++
          [{ position_id := position_id, old_stop_loss := p.current_stop_loss,
             new_stop_loss := new_stop, reason := reason, current_price := 0 }] }
    else db

/-! ## Theorems about the reconciliation and stop-loss machinery -/

/-- C4: with an active local position X of quantity 10 and the broker
    reporting X with quantity 5, the manager-side reconciliation
    (`_sync_positions_with_stop_losses`, the one invoked by
    `sync_with_alpaca`) records no trade at all and leaves the stored
    quantity at 10 — its quantity-mismatch block is nested under the dead
    `else` — while the DAO-side `sync_positions_with_alpaca` records
    exactly one SYNC_UPDATE SELL of the delta 5 and stores quantity 5. -/
theorem manager_sync_skips_quantity_mismatch :
    sync_positions_with_stop_losses (fun q => q) (fun _ => none)
        [⟨1, "X", 10, 100, some 95, true⟩] [⟨"X", 5, 100⟩] 2
      = .ok ([⟨1, "X", 10, 100, some 95, true⟩], [], [], 2)
    ∧ sync_positions_with_alpaca
        [⟨1, "X", 10, 100, some 95, true⟩] [⟨"X", 5, 100⟩] 2
      = ([⟨1, "X", 5, 100, some 95, true⟩],
         [⟨some 1, "X", "SELL", 5, 100, "SYNC_UPDATE"⟩], 2) := by
  refine ⟨rfl, ?_⟩
  norm_num [sync_positions_with_alpaca, daoStep, daoCloseTrades, daoClosedIds,
    daoApply, pyDict, dictInsert, dictMem, dictFind, pyInt]

/-- Broker list of the C5 counterexample: a fractional quantity (X: 1.5)
    and a zero quantity (Y: 0). -/
def cexBroker : List BrokerPos := [⟨"X", 3/2, 10⟩, ⟨"Y", 0, 20⟩]

/-- Local position table of the C5 counterexample. -/
def cexState : List Pos := [⟨1, "Y", 4, 20, none, true⟩]

/-- Position table after the first reconciliation run: Y was zeroed and
    closed by a SYNC_UPDATE, X was created with `int(1.5) = 1` shares. -/
def cexState1 : List Pos :=
  [⟨1, "Y", 0, 20, none, false⟩, ⟨2, "X", 1, 10, none, true⟩]

lemma cex_run1 : sync_positions_with_alpaca cexState cexBroker 2
    = (cexState1,
       [⟨some 2, "X", "BUY", 1, 10, "SYNC_ADD"⟩,
        ⟨some 1, "Y", "SELL", 4, 20, "SYNC_UPDATE"⟩], 3) := by
  norm_num +decide [cexState, cexBroker, cexState1, sync_positions_with_alpaca,
    daoStep, daoCloseTrades, daoClosedIds, daoApply, pyDict, dictInsert,
    dictMem, dictFind, pyInt]

lemma cex_run2 : sync_positions_with_alpaca cexState1 cexBroker 3
    = ([⟨1, "Y", 0, 20, none, false⟩, ⟨2, "X", 3/2, 10, none, true⟩,
        ⟨3, "Y", 0, 20, none, true⟩],
       [⟨some 2, "X", "BUY", 1/2, 10, "SYNC_UPDATE"⟩,
        ⟨some 3, "Y", "BUY", 0, 20, "SYNC_ADD"⟩], 4) := by
  norm_num +decide [cexState1, cexBroker, sync_positions_with_alpaca, daoStep,
    daoCloseTrades, daoClosedIds, daoApply, pyDict, dictInsert, dictMem,
    dictFind, pyInt]

/-- C5 counterexample: with a broker list containing a fractional quantity
    (X: 1.5) and a zero quantity (Y: 0), the DAO reconciliation run twice
    from the same broker input emits two further trades on the second run
    (the SYNC_ADD path stored `int(1.5) = 1` for X, and Y was closed and is
    re-added), so reconciliation is not idempotent as claimed. -/
theorem dao_sync_second_run_emits_trades :
    (sync_positions_with_alpaca
        (sync_positions_with_alpaca cexState cexBroker 2).1 cexBroker
        (sync_positions_with_alpaca cexState cexBroker 2).2.2).2.1
      = [⟨some 2, "X", "BUY", 1/2, 10, "SYNC_UPDATE"⟩,
         ⟨some 3, "Y", "BUY", 0, 20, "SYNC_ADD"⟩] := by
  rw [cex_run1, cex_run2]

/-- C8: `create_position` commits the `Position` and its BUY trade in one
    transaction — a failed commit records neither — but the trade is
    recorded with `position_id = None` (the id is read before any flush),
    not referencing the created position; `update_stop_loss` commits the
    stop mutation together with its audit record, or neither. -/
theorem create_position_atomic_but_trade_unlinked :
    (∀ (db : Db) (s : String) (q e : ℚ) (st : Option ℚ),
        create_position db s q e st true
          = ({ db with
               positions := db.positions ++ [⟨db.nextPositionId, s, q, e, st, true⟩],
               trades := db.trades ++ [⟨none, s, "BUY", q, e, "NEW_POSITION"⟩],
               nextPositionId := db.nextPositionId + 1 }, some db.nextPositionId))
    ∧ (∀ (db : Db) (s : String) (q e : ℚ) (st : Option ℚ),
        create_position db s q e st false = (db, none))
    ∧ (∀ (db : Db) (pid : Nat) (ns : ℚ) (rsn : String) (p : Pos),
        db.positions.find? (fun x => x.id == pid) = some p →
        update_stop_loss db pid ns rsn true
          = { db with
              positions := db.positions.map (fun x =>
                if x.id == pid then { x with current_stop_loss := some ns } else x),
              stop_updates := db.stop_updates ++
                [⟨pid, p.current_stop_loss, ns, rsn, 0⟩] })
    ∧ (∀ (db : Db) (pid : Nat) (ns : ℚ) (rsn : String),
        update_stop_loss db pid ns rsn false = db) := by
  refine ⟨fun db s q e st => rfl, fun db s q e st => rfl, ?_, ?_⟩
  · intro db pid ns rsn p hp
    simp only [update_stop_loss, hp]
    rfl
  · intro db pid ns rsn
    unfold update_stop_loss
    cases db.positions.find? (fun x => x.id == pid) <;> rfl

/-- Concrete instantiation of `create_position_atomic_but_trade_unlinked`:
    on a store holding position 1 with stop 92, a stop update to 95 commits
    the mutation together with its single TRAILING audit row. -/
theorem create_position_atomic_but_trade_unlinked_witness :
    (⟨[⟨1, "AAPL", 10, 100, some 92, true⟩], [], [], 2⟩ : Db).positions.find?
        (fun x => x.id == 1) = some ⟨1, "AAPL", 10, 100, some 92, true⟩
    ∧ (update_stop_loss ⟨[⟨1, "AAPL", 10, 100, some 92, true⟩], [], [], 2⟩
        1 95 "TRAILING" true).stop_updates = [⟨1, some 92, 95, "TRAILING", 0⟩] := by
  refine ⟨by rfl, ?_⟩
  have h := create_position_atomic_but_trade_unlinked.2.2.1
    ⟨[⟨1, "AAPL", 10, 100, some 92, true⟩], [], [], 2⟩ 1 95 "TRAILING"
    ⟨1, "AAPL", 10, 100, some 92, true⟩ (by rfl)
  rw [h]
  rfl

lemma length_filterMap_eq_length_filter {α β : Type} (f : α → Option β)
    (l : List α) :
    (l.filterMap f).length = (l.filter (fun a => (f a).isSome)).length := by
  induction l with
  | nil => rfl
  | cons a l ih =>
    cases h : f a <;>
      simp [List.filterMap_cons, h, List.filter_cons, ih]

lemma stopLE_refl (a : Option ℚ) : stopLE a a = true := by
  cases a <;> simp [stopLE]

lemma stopLE_trans {a b c : Option ℚ} (h1 : stopLE a b = true)
    (h2 : stopLE b c = true) : stopLE a c = true := by
  cases a <;> cases b <;> cases c <;> simp [stopLE] at * <;> try linarith

lemma stopLE_trailUpdate {stop : Option ℚ} {price : ℚ} (h : 0 ≤ price) :
    stopLE stop
      (if trailCond stop (price * (1 - 0.05)) then some (price * (1 - 0.05))
       else stop) = true := by
  have hc : 0 ≤ price * (1 - 0.05) := by nlinarith
  cases stop with
  | none => simp [trailCond, stopLE]
  | some s =>
    simp only [trailCond]
    by_cases h0 : s = 0
    · subst h0
      simp [stopLE, hc]
    · by_cases hgt : price * (1 - 0.05) > s
      · simp [stopLE, h0, hgt, le_of_lt hgt]
      · simp [stopLE, h0, hgt]



/-! Helper lemmas for the idempotence analysis of the DAO reconciliation
(claim C5).  Under the one-open-position-per-symbol invariant the Python
dict comprehensions reduce to plain association lists. -/

lemma dictInsert_of_not_mem {α : Type} (d : List (String × α)) (k : String)
    (v : α) (h : d.any (fun kv => kv.1 == k) = false) :
    dictInsert d k v = d ++ [(k, v)] := by
  simp [dictInsert, h]

lemma pyDict_aux {α : Type} (key : α → String) (l : List α)
    (d : List (String × α))
    (hd : ∀ a ∈ l, d.any (fun kv => kv.1 == key a) = false)
    (hn : (l.map key).Nodup) :
    l.foldl (fun d a => dictInsert d (key a) a) d
      = d ++ l.map (fun a => (key a, a)) := by
  induction l generalizing d with
  | nil => simp
  | cons a l ih =>
    simp only [List.foldl_cons]
    rw [dictInsert_of_not_mem d (key a) a (hd a (by simp))]
    rw [ih (d ++ [(key a, a)]) ?_ ?_]
    · simp
    · intro b hb
      rw [List.any_append]
      simp only [Bool.or_eq_false_iff]
      refine ⟨hd b (by simp [hb]), ?_⟩
      have hne : key a ≠ key b := by
        intro hcontra
        exact (List.nodup_cons.mp hn).1 (hcontra ▸ List.mem_map_of_mem key hb)
      simp [hne]
    · exact (List.nodup_cons.mp hn).2

lemma pyDict_of_nodup {α : Type} (key : α → String) (l : List α)
    (hn : (l.map key).Nodup) :
    pyDict key l = l.map (fun a => (key a, a)) := by
  simpa [pyDict] using pyDict_aux key l [] (by simp) hn

lemma dictMem_map {α : Type} (key : α → String) (l : List α) (k : String) :
    dictMem (l.map (fun a => (key a, a))) k = l.any (fun a => key a == k) := by
  induction l with
  | nil => rfl
  | cons a l ih => simp [dictMem, List.any_cons] at ih ⊢; rw [ih]

lemma dictFind_map {α : Type} (key : α → String) (l : List α) (k : String) :
    dictFind (l.map (fun a => (key a, a))) k
      = l.find? (fun a => key a == k) := by
  induction l with
  | nil => rfl
  | cons a l ih =>
    by_cases h : key a == k
    · simp [dictFind, List.find?_cons, h]
    · simp only [List.map_cons, dictFind, List.find?_cons] at *
      simp only [h]
      exact ih

lemma find?_symbol_of_mem {l : List Pos} (hn : (l.map Pos.symbol).Nodup)
    {p : Pos} (hp : p ∈ l) :
    l.find? (fun a => a.symbol == p.symbol) = some p := by
  induction l with
  | nil => cases hp
  | cons a l ih =>
    rcases List.mem_cons.mp hp with rfl | hmem
    · simp [List.find?_cons]
    · have hne : (a.symbol == p.symbol) = false := by
        simp only [beq_eq_false_iff_ne, ne_eq]
        intro he
        exact (List.nodup_cons.mp hn).1 (he ▸ List.mem_map_of_mem Pos.symbol hmem)
      simp only [List.find?_cons, hne]
      exact ih (List.nodup_cons.mp hn).2 hmem

/-- Projection of a position row to the id-independent data relevant for
    the idempotence argument. -/
def posProj (p : Pos) : String × ℚ × Bool := (p.symbol, p.quantity, p.is_active)

lemma daoStep_foldl_noop (ls : List (String × Pos))
    (items : List (String × BrokerPos)) (acc : SyncAcc)
    (h : ∀ sb ∈ items, ∃ lp, dictFind ls sb.1 = some lp
          ∧ lp.quantity = sb.2.quantity) :
    items.foldl (daoStep ls) acc = acc := by
  induction items generalizing acc with
  | nil => rfl
  | cons sb rest ih =>
    obtain ⟨lp, hfind, hq⟩ := h sb (by simp)
    have hstep : daoStep ls acc sb = acc := by
      simp [daoStep, hfind, hq]
    rw [List.foldl_cons, hstep]
    exact ih acc (fun x hx => h x (by simp [hx]))

lemma daoStep_foldl_newPositions (ls : List (String × Pos))
    (items : List (String × BrokerPos)) (acc : SyncAcc) :
    ((items.foldl (daoStep ls) acc).newPositions).map posProj
      = acc.newPositions.map posProj ++
        (items.filter (fun sb => (dictFind ls sb.1).isNone)).map
          (fun sb => (sb.1, ((pyInt sb.2.quantity : ℤ) : ℚ), true)) := by
  induction items generalizing acc with
  | nil => simp
  | cons sb rest ih =>
    rw [List.foldl_cons]
    rcases hfind : dictFind ls sb.1 with _ | lp
    · have hstep : (daoStep ls acc sb).newPositions
          = acc.newPositions ++
            [{ id := acc.nextId, symbol := sb.1,
               quantity := ((pyInt sb.2.quantity : ℤ) : ℚ),
               entry_price := sb.2.avg_entry_price, current_stop_loss := none,
               is_active := true }] := by
        simp [daoStep, hfind]
      have hkeep : (List.filter (fun sb => (dictFind ls sb.1).isNone) (sb :: rest))
          = sb :: rest.filter (fun sb => (dictFind ls sb.1).isNone) := by
        simp [List.filter_cons, hfind]
      rw [ih (daoStep ls acc sb)]
      rw [hstep, hkeep]
      simp [posProj]
    · have hstep : (daoStep ls acc sb).newPositions = acc.newPositions := by
        by_cases hq : lp.quantity ≠ sb.2.quantity <;> simp [daoStep, hfind, hq]
      have hdrop : (List.filter (fun sb => (dictFind ls sb.1).isNone) (sb :: rest))
          = rest.filter (fun sb => (dictFind ls sb.1).isNone) := by
        simp [List.filter_cons, hfind]
      rw [ih (daoStep ls acc sb)]
      rw [hstep, hdrop]

lemma daoStep_foldl_qtyUpdates (ls : List (String × Pos))
    (items : List (String × BrokerPos)) (acc : SyncAcc) (e : Nat × ℚ) :
    e ∈ (items.foldl (daoStep ls) acc).qtyUpdates ↔
      e ∈ acc.qtyUpdates ∨ ∃ sb ∈ items, ∃ lp, dictFind ls sb.1 = some lp
        ∧ lp.quantity ≠ sb.2.quantity ∧ e = (lp.id, sb.2.quantity) := by
  induction items generalizing acc with
  | nil => simp
  | cons sb rest ih =>
    rw [List.foldl_cons, ih (daoStep ls acc sb)]
    rcases hfind : dictFind ls sb.1 with _ | lp
    · have hstep : (daoStep ls acc sb).qtyUpdates = acc.qtyUpdates := by
        simp [daoStep, hfind]
      rw [hstep]
      constructor
      · rintro (h | ⟨x, hx, hrest⟩)
        · exact Or.inl h
        · exact Or.inr ⟨x, by simp [hx], hrest⟩
      · rintro (h | ⟨x, hx, lp, hlp, hq, he⟩)
        · exact Or.inl h
        · rcases List.mem_cons.mp hx with rfl | hx'
          · rw [hfind] at hlp; cases hlp
          · exact Or.inr ⟨x, hx', lp, hlp, hq, he⟩
    · by_cases hq : lp.quantity = sb.2.quantity
      · have hstep : (daoStep ls acc sb).qtyUpdates = acc.qtyUpdates := by
          simp [daoStep, hfind, hq]
        rw [hstep]
        constructor
        · rintro (h | ⟨x, hx, hrest⟩)
          · exact Or.inl h
          · exact Or.inr ⟨x, by simp [hx], hrest⟩
        · rintro (h | ⟨x, hx, lp', hlp', hq', he⟩)
          · exact Or.inl h
          · rcases List.mem_cons.mp hx with rfl | hx'
            · rw [hfind] at hlp'
              cases hlp'
              exact absurd hq hq'
            · exact Or.inr ⟨x, hx', lp', hlp', hq', he⟩
      · have hstep : (daoStep ls acc sb).qtyUpdates
            = acc.qtyUpdates ++ [(lp.id, sb.2.quantity)] := by
          simp [daoStep, hfind, hq]
        rw [hstep]
        constructor
        · rintro (h | ⟨x, hx, hrest⟩)
          · rcases List.mem_append.mp h with h' | h'
            · exact Or.inl h'
            · refine Or.inr ⟨sb, by simp, lp, hfind, hq, ?_⟩
              simpa using h'
          · exact Or.inr ⟨x, by simp [hx], hrest⟩
        · rintro (h | ⟨x, hx, lp', hlp', hq', he⟩)
          · exact Or.inl (List.mem_append.mpr (Or.inl h))
          · rcases List.mem_cons.mp hx with rfl | hx'
            · rw [hfind] at hlp'
              cases hlp'
              subst he
              exact Or.inl (by simp)
          
            · exact Or.inr ⟨x, hx', lp', hlp', hq', he⟩

lemma nodup_map_inj {α β : Type} {f : α → β} {l : List α}
    (h : (l.map f).Nodup) {a b : α} (ha : a ∈ l) (hb : b ∈ l)
    (he : f a = f b) : a = b := by
  induction l with
  | nil => cases ha
  | cons x l ih =>
    rcases List.mem_cons.mp ha with rfl | ha' <;>
      rcases List.mem_cons.mp hb with rfl | hb'
    · rfl
    · exact absurd (he ▸ List.mem_map_of_mem f hb') (List.nodup_cons.mp h).1
    · exact absurd (he ▸ List.mem_map_of_mem f ha') (List.nodup_cons.mp h).1
    · exact ih (List.nodup_cons.mp h).2 ha' hb'

lemma pyInt_natCast (n : Nat) : ((pyInt (n : ℚ) : ℤ) : ℚ) = (n : ℚ) := by
  simp [pyInt, Nat.cast_nonneg]

lemma daoClosedIds_mem (A : List Pos) (broker : List BrokerPos) (i : Nat) :
    i ∈ daoClosedIds (A.map (fun q => (q.symbol, q)))
          (broker.map (fun b => (b.symbol, b))) ↔
      ∃ q ∈ A, dictMem (broker.map (fun b => (b.symbol, b))) q.symbol = false
        ∧ q.id = i := by
  unfold daoClosedIds
  rw [List.filterMap_map]
  rw [List.mem_filterMap]
  constructor
  · rintro ⟨q, hq, hv⟩
    by_cases hm : dictMem (broker.map (fun b => (b.symbol, b))) q.symbol
    · simp [Function.comp, hm] at hv
    · simp only [Function.comp, hm] at hv
      simp at hv
      exact ⟨q, hq, by simp [hm], hv⟩
  · rintro ⟨q, hq, hm, hv⟩
    exact ⟨q, hq, by simp [Function.comp, hm, hv]⟩

lemma daoApply_spec (state : List Pos) (broker : List BrokerPos) (n : Nat)
    (hid : (state.map (fun p => p.id)).Nodup)
    (hsym : ((state.filter (fun p => p.is_active)).map (fun p => p.symbol)).Nodup)
    (hb : (broker.map (fun b => b.symbol)).Nodup)
    (p : Pos) (hp : p ∈ state) :
    daoApply
      (daoClosedIds
        ((state.filter (fun p => p.is_active)).map (fun q => (q.symbol, q)))
        (broker.map (fun b => (b.symbol, b))))
      ((broker.map (fun b => (b.symbol, b))).foldl
        (daoStep
          ((state.filter (fun p => p.is_active)).map (fun q => (q.symbol, q))))
        ⟨[], [], [], n⟩).qtyUpdates p
    = if p.is_active then
        match broker.find? (fun b => b.symbol == p.symbol) with
        | some b =>
          if p.quantity = b.quantity then p
          else { p with quantity := b.quantity,
                        is_active := if b.quantity = 0 then false else true }
        | none => { p with is_active := false }
      else p := by
  set A := state.filter (fun p => p.is_active) with hAdef
  have hmemA : ∀ q ∈ A, q ∈ state := fun q hq => List.mem_of_mem_filter hq
  have hactA : ∀ q ∈ A, q.is_active = true := fun q hq =>
    by simpa using List.of_mem_filter hq
  -- membership characterization of the collected quantity updates
  have hqmem : ∀ e : Nat × ℚ,
      e ∈ ((broker.map (fun b => (b.symbol, b))).foldl
        (daoStep (A.map (fun q => (q.symbol, q)))) ⟨[], [], [], n⟩).qtyUpdates ↔
      ∃ b ∈ broker, ∃ lp, A.find? (fun a => a.symbol == b.symbol) = some lp
        ∧ lp.quantity ≠ b.quantity ∧ e = (lp.id, b.quantity) := by
    intro e
    rw [daoStep_foldl_qtyUpdates]
    simp only [List.mem_nil_iff, false_or]
    constructor
    · rintro ⟨sb, hsb, lp, hfind, hq, he⟩
      obtain ⟨b, hbmem, rfl⟩ := List.mem_map.mp hsb
      rw [dictFind_map] at hfind
      exact ⟨b, hbmem, lp, hfind, hq, he⟩
    · rintro ⟨b, hbmem, lp, hfind, hq, he⟩
      refine ⟨(b.symbol, b), List.mem_map_of_mem _ hbmem, lp, ?_, hq, he⟩
      rw [dictFind_map]
      exact hfind
  -- a found quantity-update entry pins down its position by primary key
  have hqid : ∀ e : Nat × ℚ,
      e ∈ ((broker.map (fun b => (b.symbol, b))).foldl
        (daoStep (A.map (fun q => (q.symbol, q)))) ⟨[], [], [], n⟩).qtyUpdates →
      e.1 = p.id →
      ∃ b ∈ broker, p.is_active = true ∧ p.symbol = b.symbol
        ∧ p.quantity ≠ b.quantity ∧ e = (p.id, b.quantity) := by
    intro e he hei
    obtain ⟨b, hbmem, lp, hfind, hq, rfl⟩ := (hqmem e).mp he
    have hlpA : lp ∈ A := List.mem_of_find?_eq_some hfind
    have hlpsym : lp.symbol = b.symbol := by
      have := List.find?_some hfind
      simpa using this
    have : lp = p := nodup_map_inj hid (hmemA lp hlpA) hp hei
    subst this
    exact ⟨b, hbmem, hactA lp hlpA, hlpsym, hq, rfl⟩
  have hcontains : ∀ i : Nat,
      (daoClosedIds (A.map (fun q => (q.symbol, q)))
        (broker.map (fun b => (b.symbol, b)))).contains i = true ↔
      i ∈ daoClosedIds (A.map (fun q => (q.symbol, q)))
        (broker.map (fun b => (b.symbol, b))) := by
    intro i
    simp [List.contains]
  by_cases hact : p.is_active
  · rcases hfound : broker.find? (fun b => b.symbol == p.symbol) with _ | b
    · -- symbol absent from the broker: closed by the first loop
      have hnone : dictMem (broker.map (fun b => (b.symbol, b))) p.symbol = false := by
        rw [dictMem_map]
        rw [List.any_eq_false]
        intro b hbmem
        have := List.find?_eq_none.mp hfound b hbmem
        simpa using this
      have hclosed : (daoClosedIds (A.map (fun q => (q.symbol, q)))
          (broker.map (fun b => (b.symbol, b)))).contains p.id = true := by
        rw [hcontains]
        rw [daoClosedIds_mem]
        exact ⟨p, List.mem_filter.mpr ⟨hp, by simp [hact]⟩, hnone, rfl⟩
      have hqnone : (((broker.map (fun b => (b.symbol, b))).foldl
          (daoStep (A.map (fun q => (q.symbol, q)))) ⟨[], [], [], n⟩).qtyUpdates).find?
            (fun u => u.1 == p.id) = none := by
        rw [List.find?_eq_none]
        intro e he hbeq
        obtain ⟨b, hbmem, _, hsymeq, _, _⟩ := hqid e he (by simpa using hbeq)
        have := List.find?_eq_none.mp hfound b hbmem
        simp [hsymeq] at this
      simp only [daoApply, hclosed, if_true, hact]
      rw [hqnone, hfound]
    · -- symbol found at the broker
      have hbmem : b ∈ broker := List.mem_of_find?_eq_some hfound
      have hbsym : b.symbol = p.symbol := by
        have := List.find?_some hfound
        simpa using this
      have hnotclosed : (daoClosedIds (A.map (fun q => (q.symbol, q)))
          (broker.map (fun b => (b.symbol, b)))).contains p.id = false := by
        rw [Bool.eq_false_iff]
        intro hc
        rw [hcontains, daoClosedIds_mem] at hc
        obtain ⟨q, hqA, hqnone, hqid'⟩ := hc
        have : q = p := nodup_map_inj hid (hmemA q hqA) hp hqid'
        subst this
        rw [dictMem_map, List.any_eq_false] at hqnone
        exact hqnone b hbmem (by simp [hbsym])
      by_cases hqe : p.quantity = b.quantity
      · have hqnone : (((broker.map (fun b => (b.symbol, b))).foldl
            (daoStep (A.map (fun q => (q.symbol, q)))) ⟨[], [], [], n⟩).qtyUpdates).find?
              (fun u => u.1 == p.id) = none := by
          rw [List.find?_eq_none]
          intro e he hbeq
          obtain ⟨b', hbmem', _, hsymeq, hqne, _⟩ := hqid e he (by simpa using hbeq)
          have : b' = b := nodup_map_inj hb hbmem' hbmem (by rw [← hsymeq, hbsym])
          subst this
          exact hqne (hqe ▸ rfl)
        simp only [daoApply, hnotclosed, Bool.false_eq_true, if_false, hact,
          hfound, hqe, if_true]
        rw [hqnone]
      · have hpA : p ∈ A := List.mem_filter.mpr ⟨hp, by simp [hact]⟩
        have hfindA : A.find? (fun a => a.symbol == b.symbol) = some p := by
          rw [hbsym]
          exact find?_symbol_of_mem hsym hpA
        have hmemq : ((p.id, b.quantity) : Nat × ℚ) ∈
            ((broker.map (fun b => (b.symbol, b))).foldl
              (daoStep (A.map (fun q => (q.symbol, q)))) ⟨[], [], [], n⟩).qtyUpdates := by
          rw [hqmem]
          exact ⟨b, hbmem, p, hfindA, fun h => hqe h, rfl⟩
        have hfindq : (((broker.map (fun b => (b.symbol, b))).foldl
            (daoStep (A.map (fun q => (q.symbol, q)))) ⟨[], [], [], n⟩).qtyUpdates).find?
              (fun u => u.1 == p.id) = some (p.id, b.quantity) := by
          have hsome : ((((broker.map (fun b => (b.symbol, b))).foldl
              (daoStep (A.map (fun q => (q.symbol, q)))) ⟨[], [], [], n⟩).qtyUpdates).find?
                (fun u => u.1 == p.id)).isSome := by
            rw [List.find?_isSome]
            exact ⟨(p.id, b.quantity), hmemq, by simp⟩
          obtain ⟨e, he⟩ := Option.isSome_iff_exists.mp hsome
          rw [he]
          have hemem := List.mem_of_find?_eq_some he
          have hepred : e.1 = p.id := by simpa using List.find?_some he
          obtain ⟨b', hbmem', _, hsymeq, _, heq⟩ := hqid e hemem hepred
          have : b' = b := nodup_map_inj hb hbmem' hbmem (by rw [← hsymeq, hbsym])
          subst this
          rw [heq]
        simp only [daoApply, hnotclosed, Bool.false_eq_true, if_false, hact,
          hfound, hqe]
        rw [hfindq]
        simp [hact, hqe]
  · -- inactive rows are untouched
    have hnotclosed : (daoClosedIds (A.map (fun q => (q.symbol, q)))
        (broker.map (fun b => (b.symbol, b)))).contains p.id = false := by
      rw [Bool.eq_false_iff]
      intro hc
      rw [hcontains, daoClosedIds_mem] at hc
      obtain ⟨q, hqA, _, hqid'⟩ := hc
      have : q = p := nodup_map_inj hid (hmemA q hqA) hp hqid'
      subst this
      exact hact (by simpa using hactA q hqA)
    have hqnone : (((broker.map (fun b => (b.symbol, b))).foldl
        (daoStep (A.map (fun q => (q.symbol, q)))) ⟨[], [], [], n⟩).qtyUpdates).find?
          (fun u => u.1 == p.id) = none := by
      rw [List.find?_eq_none]
      intro e he hbeq
      obtain ⟨_, _, hpact, _, _, _⟩ := hqid e he (by simpa using hbeq)
      exact hact (by simp [hpact])
    simp only [daoApply, hnotclosed, Bool.false_eq_true, if_false, hact]
    rw [hqnone]

lemma sync_components (state : List Pos) (broker : List BrokerPos) (n : Nat)
    (hsym : (((state.filter (fun p => p.is_active))).map (fun p => p.symbol)).Nodup)
    (hb : (broker.map (fun b => b.symbol)).Nodup) :
    sync_positions_with_alpaca state broker n
      = ((state.map (daoApply (daoClosedIds ((state.filter (fun p => p.is_active)).map (fun q => (q.symbol, q))) (broker.map (fun b => (b.symbol, b)))) ((broker.map (fun b => (b.symbol, b))).foldl (daoStep ((state.filter (fun p => p.is_active)).map (fun q => (q.symbol, q)))) ⟨[], [], [], n⟩).qtyUpdates) ++ ((broker.map (fun b => (b.symbol, b))).foldl (daoStep ((state.filter (fun p => p.is_active)).map (fun q => (q.symbol, q)))) ⟨[], [], [], n⟩).newPositions),
         daoCloseTrades ((state.filter (fun p => p.is_active)).map (fun q => (q.symbol, q))) (broker.map (fun b => (b.symbol, b))) ++ ((broker.map (fun b => (b.symbol, b))).foldl (daoStep ((state.filter (fun p => p.is_active)).map (fun q => (q.symbol, q)))) ⟨[], [], [], n⟩).trades,
         ((broker.map (fun b => (b.symbol, b))).foldl (daoStep ((state.filter (fun p => p.is_active)).map (fun q => (q.symbol, q)))) ⟨[], [], [], n⟩).nextId) := by
  simp only [sync_positions_with_alpaca]
  rw [pyDict_of_nodup _ _ hsym, pyDict_of_nodup _ _ hb]

lemma state1_agreement (state : List Pos) (broker : List BrokerPos) (n : Nat)
    (hid : (state.map (fun p => p.id)).Nodup)
    (hsym : (((state.filter (fun p => p.is_active))).map (fun p => p.symbol)).Nodup)
    (hb : (broker.map (fun b => b.symbol)).Nodup)
    (hq : ∀ b ∈ broker, ∃ k : Nat, 0 < k ∧ b.quantity = (k : ℚ)) :
    ((((state.map (daoApply (daoClosedIds ((state.filter (fun p => p.is_active)).map (fun q => (q.symbol, q))) (broker.map (fun b => (b.symbol, b)))) ((broker.map (fun b => (b.symbol, b))).foldl (daoStep ((state.filter (fun p => p.is_active)).map (fun q => (q.symbol, q)))) ⟨[], [], [], n⟩).qtyUpdates) ++ ((broker.map (fun b => (b.symbol, b))).foldl (daoStep ((state.filter (fun p => p.is_active)).map (fun q => (q.symbol, q)))) ⟨[], [], [], n⟩).newPositions)).filter (fun p => p.is_active)).map (fun p => p.symbol)).Nodup
    ∧ (∀ p ∈ ((state.map (daoApply (daoClosedIds ((state.filter (fun p => p.is_active)).map (fun q => (q.symbol, q))) (broker.map (fun b => (b.symbol, b)))) ((broker.map (fun b => (b.symbol, b))).foldl (daoStep ((state.filter (fun p => p.is_active)).map (fun q => (q.symbol, q)))) ⟨[], [], [], n⟩).qtyUpdates) ++ ((broker.map (fun b => (b.symbol, b))).foldl (daoStep ((state.filter (fun p => p.is_active)).map (fun q => (q.symbol, q)))) ⟨[], [], [], n⟩).newPositions)).filter (fun p => p.is_active),
        ∃ b ∈ broker, b.symbol = p.symbol ∧ p.quantity = b.quantity)
    ∧ (∀ b ∈ broker, ∃ p ∈ ((state.map (daoApply (daoClosedIds ((state.filter (fun p => p.is_active)).map (fun q => (q.symbol, q))) (broker.map (fun b => (b.symbol, b)))) ((broker.map (fun b => (b.symbol, b))).foldl (daoStep ((state.filter (fun p => p.is_active)).map (fun q => (q.symbol, q)))) ⟨[], [], [], n⟩).qtyUpdates) ++ ((broker.map (fun b => (b.symbol, b))).foldl (daoStep ((state.filter (fun p => p.is_active)).map (fun q => (q.symbol, q)))) ⟨[], [], [], n⟩).newPositions)).filter (fun p => p.is_active),
        p.symbol = b.symbol) := by
  have hspec := daoApply_spec state broker n hid hsym hb
  have hsymmap : ∀ p ∈ state, ((daoApply (daoClosedIds ((state.filter (fun p => p.is_active)).map (fun q => (q.symbol, q))) (broker.map (fun b => (b.symbol, b)))) ((broker.map (fun b => (b.symbol, b))).foldl (daoStep ((state.filter (fun p => p.is_active)).map (fun q => (q.symbol, q)))) ⟨[], [], [], n⟩).qtyUpdates) p).symbol = p.symbol := by
    intro p hp
    rw [hspec p hp]
    by_cases hact : p.is_active
    · rcases hfound : broker.find? (fun b => b.symbol == p.symbol) with _ | b
      · simp [hact, hfound]
      · by_cases hqe : p.quantity = b.quantity <;> simp [hact, hfound, hqe]
    · simp [hact]
  have hactmap : ∀ p ∈ state, ((daoApply (daoClosedIds ((state.filter (fun p => p.is_active)).map (fun q => (q.symbol, q))) (broker.map (fun b => (b.symbol, b)))) ((broker.map (fun b => (b.symbol, b))).foldl (daoStep ((state.filter (fun p => p.is_active)).map (fun q => (q.symbol, q)))) ⟨[], [], [], n⟩).qtyUpdates) p).is_active
      = (p.is_active && (broker.find? (fun b => b.symbol == p.symbol)).isSome) := by
    intro p hp
    rw [hspec p hp]
    by_cases hact : p.is_active
    · rcases hfound : broker.find? (fun b => b.symbol == p.symbol) with _ | b
      · simp [hact, hfound]
      · by_cases hqe : p.quantity = b.quantity
        · simp [hact, hfound, hqe]
        · obtain ⟨k, hk, hbq⟩ := hq b (List.mem_of_find?_eq_some hfound)
          have hbq0 : ¬(b.quantity = 0) := by
            rw [hbq]
            exact_mod_cast Nat.pos_iff_ne_zero.mp hk
          simp [hact, hfound, hqe, hbq0]
    · simp [hact]
  have hP1map : ∀ p ∈ state, ((daoApply (daoClosedIds ((state.filter (fun p => p.is_active)).map (fun q => (q.symbol, q))) (broker.map (fun b => (b.symbol, b)))) ((broker.map (fun b => (b.symbol, b))).foldl (daoStep ((state.filter (fun p => p.is_active)).map (fun q => (q.symbol, q)))) ⟨[], [], [], n⟩).qtyUpdates) p).is_active = true →
      ∃ b ∈ broker, b.symbol = ((daoApply (daoClosedIds ((state.filter (fun p => p.is_active)).map (fun q => (q.symbol, q))) (broker.map (fun b => (b.symbol, b)))) ((broker.map (fun b => (b.symbol, b))).foldl (daoStep ((state.filter (fun p => p.is_active)).map (fun q => (q.symbol, q)))) ⟨[], [], [], n⟩).qtyUpdates) p).symbol
        ∧ ((daoApply (daoClosedIds ((state.filter (fun p => p.is_active)).map (fun q => (q.symbol, q))) (broker.map (fun b => (b.symbol, b)))) ((broker.map (fun b => (b.symbol, b))).foldl (daoStep ((state.filter (fun p => p.is_active)).map (fun q => (q.symbol, q)))) ⟨[], [], [], n⟩).qtyUpdates) p).quantity = b.quantity := by
    intro p hp hact1
    rw [hactmap p hp] at hact1
    rw [Bool.and_eq_true] at hact1
    obtain ⟨hact, hfoundsome⟩ := hact1
    obtain ⟨b, hfb⟩ := Option.isSome_iff_exists.mp hfoundsome
    have hbmem := List.mem_of_find?_eq_some hfb
    have hbsym : b.symbol = p.symbol := by simpa using List.find?_some hfb
    refine ⟨b, hbmem, ?_, ?_⟩
    · rw [hsymmap p hp]
      exact hbsym
    · rw [hspec p hp]
      by_cases hqe : p.quantity = b.quantity <;> simp [hact, hfb, hqe]
  have hnp : (((broker.map (fun b => (b.symbol, b))).foldl (daoStep ((state.filter (fun p => p.is_active)).map (fun q => (q.symbol, q)))) ⟨[], [], [], n⟩).newPositions).map posProj
      = (broker.filter (fun b =>
            (((state.filter (fun p => p.is_active))).find? (fun a => a.symbol == b.symbol)).isNone)).map
          (fun b => (b.symbol, ((pyInt b.quantity : ℤ) : ℚ), true)) := by
    rw [daoStep_foldl_newPositions]
    simp only [List.map_nil, List.nil_append]
    have h1 : (broker.map (fun b => (b.symbol, b))).filter
          (fun sb => (dictFind ((state.filter (fun p => p.is_active)).map (fun q => (q.symbol, q))) sb.1).isNone)
        = (broker.filter (fun b =>
            (((state.filter (fun p => p.is_active))).find? (fun a => a.symbol == b.symbol)).isNone)).map
              (fun b => (b.symbol, b)) := by
      rw [List.filter_map]
      congr 1
      apply List.filter_congr
      intro b _
      simp only [Function.comp]
      rw [dictFind_map]
    rw [h1, List.map_map]
    rfl
  have hnpmem : ∀ r ∈ (((broker.map (fun b => (b.symbol, b))).foldl (daoStep ((state.filter (fun p => p.is_active)).map (fun q => (q.symbol, q)))) ⟨[], [], [], n⟩).newPositions), ∃ b ∈ broker, r.symbol = b.symbol
      ∧ r.quantity = ((pyInt b.quantity : ℤ) : ℚ) ∧ r.is_active = true := by
    intro r hr
    have hmr : posProj r ∈ (((broker.map (fun b => (b.symbol, b))).foldl (daoStep ((state.filter (fun p => p.is_active)).map (fun q => (q.symbol, q)))) ⟨[], [], [], n⟩).newPositions).map posProj := List.mem_map_of_mem _ hr
    rw [hnp] at hmr
    obtain ⟨b, hbmem, hproj⟩ := List.mem_map.mp hmr
    simp only [posProj, Prod.mk.injEq] at hproj
    exact ⟨b, List.mem_of_mem_filter hbmem, hproj.1.symm, hproj.2.1.symm,
      hproj.2.2.symm⟩
  have hnpexists : ∀ b ∈ broker,
      (((state.filter (fun p => p.is_active))).find? (fun a => a.symbol == b.symbol)) = none →
      ∃ r ∈ (((broker.map (fun b => (b.symbol, b))).foldl (daoStep ((state.filter (fun p => p.is_active)).map (fun q => (q.symbol, q)))) ⟨[], [], [], n⟩).newPositions), r.symbol = b.symbol ∧ r.is_active = true := by
    intro b hbmem hfnone
    have hbf : b ∈ broker.filter (fun b =>
        (((state.filter (fun p => p.is_active))).find? (fun a => a.symbol == b.symbol)).isNone) :=
      List.mem_filter.mpr ⟨hbmem, by simp [hfnone]⟩
    have : (b.symbol, ((pyInt b.quantity : ℤ) : ℚ), true) ∈
        (((broker.map (fun b => (b.symbol, b))).foldl (daoStep ((state.filter (fun p => p.is_active)).map (fun q => (q.symbol, q)))) ⟨[], [], [], n⟩).newPositions).map posProj := by
      rw [hnp]
      exact List.mem_map_of_mem _ hbf
    obtain ⟨r, hr, hproj⟩ := List.mem_map.mp this
    simp only [posProj, Prod.mk.injEq] at hproj
    exact ⟨r, hr, hproj.1, hproj.2.2⟩
  have hsplit : ((state.map (daoApply (daoClosedIds ((state.filter (fun p => p.is_active)).map (fun q => (q.symbol, q))) (broker.map (fun b => (b.symbol, b)))) ((broker.map (fun b => (b.symbol, b))).foldl (daoStep ((state.filter (fun p => p.is_active)).map (fun q => (q.symbol, q)))) ⟨[], [], [], n⟩).qtyUpdates) ++ ((broker.map (fun b => (b.symbol, b))).foldl (daoStep ((state.filter (fun p => p.is_active)).map (fun q => (q.symbol, q)))) ⟨[], [], [], n⟩).newPositions)).filter (fun p => p.is_active)
      = (state.map (daoApply (daoClosedIds ((state.filter (fun p => p.is_active)).map (fun q => (q.symbol, q))) (broker.map (fun b => (b.symbol, b)))) ((broker.map (fun b => (b.symbol, b))).foldl (daoStep ((state.filter (fun p => p.is_active)).map (fun q => (q.symbol, q)))) ⟨[], [], [], n⟩).qtyUpdates)).filter (fun p => p.is_active)
        ++ (((broker.map (fun b => (b.symbol, b))).foldl (daoStep ((state.filter (fun p => p.is_active)).map (fun q => (q.symbol, q)))) ⟨[], [], [], n⟩).newPositions).filter (fun p => p.is_active) := List.filter_append _ _
  have hleft : (state.map (daoApply (daoClosedIds ((state.filter (fun p => p.is_active)).map (fun q => (q.symbol, q))) (broker.map (fun b => (b.symbol, b)))) ((broker.map (fun b => (b.symbol, b))).foldl (daoStep ((state.filter (fun p => p.is_active)).map (fun q => (q.symbol, q)))) ⟨[], [], [], n⟩).qtyUpdates)).filter (fun p => p.is_active)
      = (((state.filter (fun p => p.is_active))).filter (fun p =>
            (broker.find? (fun b => b.symbol == p.symbol)).isSome)).map (daoApply (daoClosedIds ((state.filter (fun p => p.is_active)).map (fun q => (q.symbol, q))) (broker.map (fun b => (b.symbol, b)))) ((broker.map (fun b => (b.symbol, b))).foldl (daoStep ((state.filter (fun p => p.is_active)).map (fun q => (q.symbol, q)))) ⟨[], [], [], n⟩).qtyUpdates) := by
    rw [List.filter_map]
    congr 1
    rw [List.filter_congr (fun p hp => by
      simp only [Function.comp]
      rw [hactmap p hp])]
    rw [List.filter_filter]
    apply List.filter_congr
    intro p _
    exact Bool.and_comm _ _
  have hnpact : (((broker.map (fun b => (b.symbol, b))).foldl (daoStep ((state.filter (fun p => p.is_active)).map (fun q => (q.symbol, q)))) ⟨[], [], [], n⟩).newPositions).filter (fun p => p.is_active) = ((broker.map (fun b => (b.symbol, b))).foldl (daoStep ((state.filter (fun p => p.is_active)).map (fun q => (q.symbol, q)))) ⟨[], [], [], n⟩).newPositions := by
    apply List.filter_eq_self.mpr
    intro r hr
    obtain ⟨_, _, _, _, hra⟩ := hnpmem r hr
    simp [hra]
  refine ⟨?_, ?_, ?_⟩
  · -- the active symbols after the run are distinct
    rw [hsplit, hleft, hnpact, List.map_append]
    have hlsym : ((((state.filter (fun p => p.is_active))).filter (fun p =>
          (broker.find? (fun b => b.symbol == p.symbol)).isSome)).map (daoApply (daoClosedIds ((state.filter (fun p => p.is_active)).map (fun q => (q.symbol, q))) (broker.map (fun b => (b.symbol, b)))) ((broker.map (fun b => (b.symbol, b))).foldl (daoStep ((state.filter (fun p => p.is_active)).map (fun q => (q.symbol, q)))) ⟨[], [], [], n⟩).qtyUpdates)).map
            (fun p => p.symbol)
        = (((state.filter (fun p => p.is_active))).filter (fun p =>
            (broker.find? (fun b => b.symbol == p.symbol)).isSome)).map
              (fun p => p.symbol) := by
      rw [List.map_map]
      apply List.map_congr_left
      intro p hp
      exact hsymmap p (List.mem_of_mem_filter (List.mem_of_mem_filter hp))
    have hrsym : (((broker.map (fun b => (b.symbol, b))).foldl (daoStep ((state.filter (fun p => p.is_active)).map (fun q => (q.symbol, q)))) ⟨[], [], [], n⟩).newPositions).map (fun p => p.symbol)
        = (broker.filter (fun b =>
            (((state.filter (fun p => p.is_active))).find? (fun a => a.symbol == b.symbol)).isNone)).map
              (fun b => b.symbol) := by
      have := congrArg (List.map (fun x : String × ℚ × Bool => x.1)) hnp
      rw [List.map_map, List.map_map] at this
      exact this
    rw [hlsym, hrsym]
    apply List.Nodup.append
    · exact ((List.filter_sublist _).map _).nodup hsym
    · exact ((List.filter_sublist _).map _).nodup hb
    · intro s hs hs2
      obtain ⟨p, hpf, rfl⟩ := List.mem_map.mp hs
      obtain ⟨b, hbf, hbsym⟩ := List.mem_map.mp hs2
      have hfnone := List.of_mem_filter hbf
      rw [Option.isNone_iff_eq_none, List.find?_eq_none] at hfnone
      exact hfnone p (List.mem_of_mem_filter hpf) (by simp [hbsym])
  · -- every active row agrees with a broker row
    intro r hr
    rw [hsplit] at hr
    rcases List.mem_append.mp hr with hr1 | hr2
    · have hract := List.of_mem_filter hr1
      obtain ⟨p, hp, rfl⟩ := List.mem_map.mp (List.mem_of_mem_filter hr1)
      exact hP1map p hp (by simpa using hract)
    · rw [hnpact] at hr2
      obtain ⟨b, hbmem, hrs, hrq, _⟩ := hnpmem r hr2
      obtain ⟨k, hk, hbq⟩ := hq b hbmem
      refine ⟨b, hbmem, hrs.symm, ?_⟩
      rw [hrq, hbq, pyInt_natCast]
  · -- every broker row has an active counterpart
    intro b hbmem
    rcases hf : ((state.filter (fun p => p.is_active))).find? (fun a => a.symbol == b.symbol) with _ | p
    · obtain ⟨r, hr, hrs, hra⟩ := hnpexists b hbmem hf
      refine ⟨r, ?_, hrs⟩
      rw [hsplit, hnpact]
      exact List.mem_append.mpr (Or.inr hr)
    · have hpA : p ∈ (state.filter (fun p => p.is_active)) := List.mem_of_find?_eq_some hf
      have hpsym : p.symbol = b.symbol := by simpa using List.find?_some hf
      have hpact : p.is_active = true := by simpa using List.of_mem_filter hpA
      have hsome : (broker.find? (fun b => b.symbol == p.symbol)).isSome := by
        rw [List.find?_isSome]
        exact ⟨b, hbmem, by simp [hpsym]⟩
      refine ⟨(daoApply (daoClosedIds ((state.filter (fun p => p.is_active)).map (fun q => (q.symbol, q))) (broker.map (fun b => (b.symbol, b)))) ((broker.map (fun b => (b.symbol, b))).foldl (daoStep ((state.filter (fun p => p.is_active)).map (fun q => (q.symbol, q)))) ⟨[], [], [], n⟩).qtyUpdates) p, ?_, ?_⟩
      · rw [hsplit, hleft]
        apply List.mem_append.mpr
        refine Or.inl (List.mem_map_of_mem _ ?_)
        exact List.mem_filter.mpr ⟨hpA, by simpa using hsome⟩
      · rw [hsymmap p (List.mem_of_mem_filter hpA), hpsym]

lemma sync_no_trades_of_agree (state : List Pos) (broker : List BrokerPos)
    (n : Nat)
    (hsym : (((state.filter (fun p => p.is_active))).map (fun p => p.symbol)).Nodup)
    (hb : (broker.map (fun b => b.symbol)).Nodup)
    (hP1 : ∀ p ∈ (state.filter (fun p => p.is_active)), ∃ b ∈ broker, b.symbol = p.symbol
        ∧ p.quantity = b.quantity)
    (hP2 : ∀ b ∈ broker, ∃ p ∈ (state.filter (fun p => p.is_active)), p.symbol = b.symbol) :
    (sync_positions_with_alpaca state broker n).2.1 = [] := by
  rw [sync_components state broker n hsym hb]
  show daoCloseTrades ((state.filter (fun p => p.is_active)).map (fun q => (q.symbol, q))) (broker.map (fun b => (b.symbol, b))) ++ ((broker.map (fun b => (b.symbol, b))).foldl (daoStep ((state.filter (fun p => p.is_active)).map (fun q => (q.symbol, q)))) ⟨[], [], [], n⟩).trades = []
  have hfold : ((broker.map (fun b => (b.symbol, b))).foldl (daoStep ((state.filter (fun p => p.is_active)).map (fun q => (q.symbol, q)))) ⟨[], [], [], n⟩) = ⟨[], [], [], n⟩ := by
    apply daoStep_foldl_noop
    intro sb hsb
    obtain ⟨b, hbmem, rfl⟩ := List.mem_map.mp hsb
    rw [dictFind_map]
    obtain ⟨p, hpA, hpsym⟩ := hP2 b hbmem
    have hfindp : ((state.filter (fun p => p.is_active))).find? (fun a => a.symbol == b.symbol) = some p := by
      rw [← hpsym]
      exact find?_symbol_of_mem hsym hpA
    refine ⟨p, hfindp, ?_⟩
    obtain ⟨b2, hbmem2, hbsym2, hq2⟩ := hP1 p hpA
    have : b2 = b := nodup_map_inj hb hbmem2 hbmem (by rw [hbsym2, hpsym])
    subst this
    exact hq2
  rw [hfold]
  have hclose : daoCloseTrades ((state.filter (fun p => p.is_active)).map (fun q => (q.symbol, q))) (broker.map (fun b => (b.symbol, b))) = [] := by
    unfold daoCloseTrades
    rw [List.filterMap_map]
    apply List.filterMap_eq_nil_iff.mpr
    intro p hpA
    simp only [Function.comp]
    have hm : dictMem (broker.map (fun b => (b.symbol, b))) p.symbol = true := by
      rw [dictMem_map, List.any_eq_true]
      obtain ⟨b, hbmem, hbsym, _⟩ := hP1 p hpA
      exact ⟨b, hbmem, by simp [hbsym]⟩
    simp [hm]
  rw [hclose]
  rfl

/-- C5 amended: running the DAO reconciliation twice with unchanged broker
    input produces zero Trades on the second run, provided active local
    symbols and broker symbols are distinct, primary keys are unique, and
    every broker-reported quantity is a positive whole number. -/
theorem dao_sync_idempotent_on_integer_quantities
    (state : List Pos) (broker : List BrokerPos) (nextId : Nat)
    (hid : (state.map (fun p => p.id)).Nodup)
    (hsym : (((state.filter (fun p => p.is_active))).map (fun p => p.symbol)).Nodup)
    (hb : (broker.map (fun b => b.symbol)).Nodup)
    (hq : ∀ b ∈ broker, ∃ k : Nat, 0 < k ∧ b.quantity = (k : ℚ)) :
    (sync_positions_with_alpaca
        (sync_positions_with_alpaca state broker nextId).1 broker
        (sync_positions_with_alpaca state broker nextId).2.2).2.1 = [] := by
  obtain ⟨hP3, hP1, hP2⟩ := state1_agreement state broker nextId hid hsym hb hq
  rw [sync_components state broker nextId hsym hb]
  exact sync_no_trades_of_agree _ broker _ hP3 hb hP1 hP2

/-- Concrete instantiation of `dao_sync_idempotent_on_integer_quantities`:
    one active local position Y (qty 4) against a broker report of Y with
    qty 2; the first run emits the SYNC_UPDATE, the second run is silent. -/
theorem dao_sync_idempotent_on_integer_quantities_witness :
    (sync_positions_with_alpaca
        (sync_positions_with_alpaca [⟨1, "Y", 4, 20, none, true⟩]
          [⟨"Y", 2, 20⟩] 2).1
        [⟨"Y", 2, 20⟩]
        (sync_positions_with_alpaca [⟨1, "Y", 4, 20, none, true⟩]
          [⟨"Y", 2, 20⟩] 2).2.2).2.1 = [] :=
  dao_sync_idempotent_on_integer_quantities _ _ _ (by simp) (by simp) (by simp)
    (by intro b hbm
        rw [List.mem_singleton] at hbm
        subst hbm
        exact ⟨2, by norm_num, by norm_num⟩)

/-- C7: the trailing-stop pass computes `price × (1 − 0.05)` per priced
    active position, appends exactly one TRAILING `StopLossUpdate` whenever
    the position has no (or a zero) stored stop or the candidate strictly
    exceeds it, and never lowers a stop: over any pass — and over any
    sequence of nonnegative price observations — stops are monotonically
    non-decreasing. -/
theorem trailing_stops_ratchet_monotone :
    (∀ (state : List Pos) (prices : List (String × ℚ)),
        (∀ u ∈ (update_trailing_stops state prices).2, u.reason = "TRAILING")
        ∧ (update_trailing_stops state prices).2.length =
            ((state.filter (fun p => p.is_active)).filter (fun p =>
              match dictFind prices p.symbol with
              | some price => trailCond p.current_stop_loss (price * (1 - 0.05))
              | none => false)).length)
    ∧ (∀ (state : List Pos) (prices : List (String × ℚ)),
        (∀ kv ∈ prices, 0 ≤ kv.2) →
        List.Forall₂ (fun p q : Pos =>
            stopLE p.current_stop_loss q.current_stop_loss = true)
          state (update_trailing_stops state prices).1)
    ∧ (∀ (stop : Option ℚ) (ps : List ℚ), (∀ x ∈ ps, 0 ≤ x) →
        stopLE stop (ps.foldl trailStep stop) = true) := by
  refine ⟨?_, ?_, ?_⟩
  · intro state prices
    constructor
    · intro u hu
      simp only [update_trailing_stops, List.mem_filterMap] at hu
      obtain ⟨p, _, hp⟩ := hu
      split at hp
      · exact absurd hp (by simp)
      · split at hp
        · cases hp
          rfl
        · exact absurd hp (by simp)
    · show (List.filterMap _ _).length = _
      rw [length_filterMap_eq_length_filter]
      congr 1
      apply List.filter_congr
      intro p _
      rcases hfind : dictFind prices p.symbol with _ | price
      · simp
      · by_cases hc : trailCond p.current_stop_loss (price * (1 - 0.05)) <;>
          simp [hc]
  · intro state prices hpr
    show List.Forall₂ _ state (state.map _)
    rw [List.forall₂_map_right_iff]
    rw [List.forall₂_same]
    intro p _
    by_cases ha : p.is_active
    · simp only [ha, if_true]
      rcases hfind : dictFind prices p.symbol with _ | price
      · exact stopLE_refl _
      · have hp0 : 0 ≤ price := by
          simp only [dictFind, Option.map_eq_some'] at hfind
          obtain ⟨kv, hkv, hkv2⟩ := hfind
          subst hkv2
          exact hpr kv (List.mem_of_find?_eq_some hkv)
        by_cases hc : trailCond p.current_stop_loss (price * (1 - 0.05))
        · have := @stopLE_trailUpdate p.current_stop_loss _ hp0
          rw [if_pos hc] at this
          simpa [hc] using this
        · simpa [hc] using stopLE_refl p.current_stop_loss
    · simp only [ha, if_false]
      exact stopLE_refl _
  · intro stop ps
    induction ps generalizing stop with
    | nil => intro _; exact stopLE_refl _
    | cons x xs ih =>
      intro hx
      have h1 : stopLE stop (trailStep stop x) = true := by
        have := @stopLE_trailUpdate stop _ (hx x (by simp))
        simpa [trailStep] using this
      have h2 := ih (trailStep stop x) (fun y hy => hx y (by simp [hy]))
      exact stopLE_trans h1 h2

/-- Concrete instantiation of `trailing_stops_ratchet_monotone`: a stop of
    90 observed at price 100 ratchets (to 95), never downward. -/
theorem trailing_stops_ratchet_monotone_witness :
    (∀ x ∈ ([100] : List ℚ), (0:ℚ) ≤ x)
    ∧ stopLE (some 90) (([100] : List ℚ).foldl trailStep (some 90)) = true :=
  ⟨by norm_num,
   trailing_stops_ratchet_monotone.2.2 (some 90) [100] (by norm_num)⟩

/-! ## Indicator library and scorer (basicAnalysis.py)

Technical indicators over a chronologically ascending list of daily bars.
Rolling statistics at `iloc[-1]` are full trailing windows; the length
guards of the source make every window complete, so the `NaN` branches of
the source are unreachable except where noted. -/

structure Bar where
  openPrice : ℚ
  high : ℚ
  low : ℚ
  close : ℚ
  volume : ℚ
deriving Repr, DecidableEq

/-- `TradingAnalysis.calculate_sma`: simple moving-average crossover. -/
def calculate_sma (data : List Bar) : ℚ × ℚ :=
  if data.length < 50 then (0, 0) else
  let closes := data.map (fun b => b.close)
  let current_price := last1 closes
  let sma_20 := listMean (lastN 20 closes)
  let sma_50 := listMean (lastN 50 closes)
  let signal : ℚ :=
    if current_price > sma_20 ∧ sma_20 > sma_50 then 0.8
    else if current_price < sma_20 ∧ sma_20 < sma_50 then -0.8
    else if current_price > sma_20 ∧ sma_20 < sma_50 then 0.3
    else if current_price < sma_20 ∧ sma_20 > sma_50 then -0.3
    else 0
  let ma_separation := |sma_20 - sma_50| / sma_50
  (signal, min 1 (ma_separation * 20))

/-- `TradingAnalysis.calculate_rsi`.  The all-flat corner is spelled out:
    a zero average loss gives `rs = NaN` (neutral return through the
    `pd.isna` guard) when the average gain is zero too, and `rs = +inf`
    (RSI 100, overbought) otherwise. -/
def calculate_rsi (data : List Bar) : ℚ × ℚ :=
  if data.length < 15 then (0, 0) else
  let closes := data.map (fun b => b.close)
  let delta := (closes.zip closes.tail).map (fun pc => pc.2 - pc.1)
  let gain := delta.map (fun d => if d > 0 then d else 0)
  let loss := delta.map (fun d => if d < 0 then -d else 0)
  let avg_gain := listMean (lastN 14 gain)
  let avg_loss := listMean (lastN 14 loss)
  if avg_loss = 0 then
    (if avg_gain = 0 then (0, 0) else (-0.9, 0.8))
  else
    let rs := avg_gain / avg_loss
    let current_rsi := 100 - (100 / (1 + rs))
    if current_rsi < 30 then (0.9, 0.8)
    else if current_rsi < 40 then (0.5, 0.6)
    else if current_rsi > 70 then (-0.9, 0.8)
    else if current_rsi > 60 then (-0.5, 0.6)
    else (0, 0.3)

/-- `TradingAnalysis.calculate_volume`.  A zero previous close raises
    ZeroDivisionError, which the handler converts to `(0, 0.1)`. -/
def calculate_volume (data : List Bar) : ℚ × ℚ :=
  if data.length < 20 then (0, 0) else
  let volumes := data.map (fun b => b.volume)
  let closes := data.map (fun b => b.close)
  let avg_volume := listMean (lastN 20 volumes)
  let current_volume := last1 volumes
  if avg_volume ≤ 0 then (0, 0) else
  let volume_ratio := current_volume / avg_volume
  let current_price := last1 closes
  let previous_price := last2 closes
  if previous_price = 0 then (0, 0.1) else
  let price_change := (current_price - previous_price) / previous_price
  if volume_ratio > 2 ∧ price_change > 0.02 then (0.7, 0.8)
  else if volume_ratio > 2 ∧ price_change < -0.02 then (-0.7, 0.8)
  else if volume_ratio > 1.5 ∧ price_change > 0.01 then (0.4, 0.6)
  else if volume_ratio > 1.5 ∧ price_change < -0.01 then (-0.4, 0.6)
  else (0, 0.3)

/-- `pandas` exponentially weighted mean with `adjust=True`
    (`ewm(span=...).mean()`), as a running weighted-numerator /
    weighted-denominator pair. -/
def ewmSeries (span : ℚ) (xs : List ℚ) : List ℚ :=
  let a := 2 / (span + 1)
  (xs.foldl (fun (st : ℚ × ℚ × List ℚ) x =>
      let num := x + (1 - a) * st.1
      let den := 1 + (1 - a) * st.2.1
      (num, den, st.2.2 ++ [num / den])) ((0 : ℚ), (0 : ℚ), ([] : List ℚ))).2.2

/-- `TradingAnalysis.calculate_macd`. -/
def calculate_macd (data : List Bar) : ℚ × ℚ :=
  if data.length < 35 then (0, 0) else
  let closes := data.map (fun b => b.close)
  let ema_12 := ewmSeries 12 closes
  let ema_26 := ewmSeries 26 closes
  let macd_line := (ema_12.zip ema_26).map (fun x => x.1 - x.2)
  let signal_line := ewmSeries 9 macd_line
  let histogram := (macd_line.zip signal_line).map (fun x => x.1 - x.2)
  let current_macd := last1 macd_line
  let current_signal := last1 signal_line
  let current_histogram := last1 histogram
  let previous_histogram := if histogram.length > 1 then last2 histogram else 0
  let prev_macd := last2 macd_line
  let prev_signal := last2 signal_line
  let base : ℚ × ℚ :=
    if current_macd > current_signal then
      (if current_histogram > previous_histogram then (0.7, 0.6) else (0.3, 0.6))
    else if current_macd < current_signal then
      (if current_histogram < previous_histogram then (-0.7, 0.8) else (-0.3, 0.6))
    else (0, 0)
  let crossed : ℚ × ℚ :=
    if current_macd > current_signal ∧ prev_macd ≤ prev_signal then (0.9, 0.9)
    else if current_macd < current_signal ∧ prev_macd ≥ prev_signal then (-0.9, 0.9)
    else base
  if current_macd > 0 ∧ prev_macd ≤ 0 then
    (min 0.8 (crossed.1 + 0.2), min 1 (crossed.2 + 0.1))
  else if current_macd < 0 ∧ prev_macd ≥ 0 then
    (max (-0.8) (crossed.1 - 0.2), min 1 (crossed.2 + 0.1))
  else crossed

/-- `TradingAnalysis.calculate_bollinger_bands` (rolling std is the sample
    deviation, `ddof=1`); the final clamps are the source's lines 817-818. -/
def calculate_bollinger_bands (sq : ℚ → ℚ) (data : List Bar)
    (period : Nat := 20) (std_dev : ℚ := 2) : ℚ × ℚ :=
  if data.length < period + 5 then (0, 0) else
  let closes := data.map (fun b => b.close)
  let current_sma := listMean (lastN period closes)
  let std := sampleStd sq (lastN period closes)
  let current_upper := current_sma + std * std_dev
  let current_lower := current_sma - std * std_dev
  let current_price := last1 closes
  let previous_price := last2 closes
  let prev_sma := listMean (lastN period closes.dropLast)
  let prev_std := sampleStd sq (lastN period closes.dropLast)
  let previous_upper := prev_sma + prev_std * std_dev
  let previous_lower := prev_sma - prev_std * std_dev
  let band_width := (current_upper - current_lower) / current_sma
  let band_position :=
    if current_upper ≠ current_lower then
      (current_price - current_lower) / current_sma
    else 0.5
  let base : ℚ × ℚ :=
    if current_price ≤ current_lower then
      (if previous_price > previous_lower then (0.8, 0.9) else (0.6, 0.7))
    else if current_price ≥ current_upper then
      (if previous_price < previous_upper then (-0.8, 0.9) else (-0.6, 0.7))
    else if band_position < 0.2 then (0.4, 0.6)
    else if band_position > 0.8 then (-0.4, 0.6)
    else if current_price > current_sma ∧ previous_price ≤ current_sma then (0.3, 0.5)
    else if current_price < current_sma ∧ previous_price ≥ current_sma then (-0.3, 0.5)
    else (0, 0)
  let squeezed : ℚ × ℚ :=
    if band_width < 0.1 then
      let s1 := if current_price > previous_price then
          (base.1 + 0.2, min 1 (base.2 + 0.1)) else base
      if current_price < previous_price then
        (s1.1 - 0.2, min 1 (s1.2 + 0.1)) else s1
    else base
  let volatility_adjustment := min 1 (band_width * 5)
  let damped : ℚ × ℚ :=
    if |squeezed.1| < 0.5 then
      (squeezed.1, squeezed.2 * (1 - volatility_adjustment * 0.3))
    else squeezed
  (max (-1) (min 1 damped.1), max 0 (min 1 damped.2))

def listMin : List ℚ → ℚ
  | [] => 0
  | x :: rest => rest.foldl min x

def listMax : List ℚ → ℚ
  | [] => 0
  | x :: rest => rest.foldl max x

/-- The `%K` value at the final bar of a series (`rolling` min/max over the
    trailing `k_period` bars, a zero range replaced by 0.01). -/
def stochasticK (data : List Bar) (k_period : Nat) : ℚ :=
  let low_min := listMin (lastN k_period (data.map (fun b => b.low)))
  let high_max := listMax (lastN k_period (data.map (fun b => b.high)))
  let range_hl0 := high_max - low_min
  let range_hl := if range_hl0 = 0 then 0.01 else range_hl0
  ((last1 (data.map (fun b => b.close)) - low_min) / range_hl) * 100

/-- `TradingAnalysis.calculate_stochastic`: `%D` is the 3-bar rolling mean
    of `%K`. -/
def calculate_stochastic (data : List Bar) (k_period : Nat := 14)
    (d_period : Nat := 3) : ℚ × ℚ :=
  if data.length < k_period + d_period then (0, 0) else
  let current_k := stochasticK data k_period
  let prev_k := stochasticK data.dropLast k_period
  let prev2_k := stochasticK data.dropLast.dropLast k_period
  let prev3_k := stochasticK data.dropLast.dropLast.dropLast k_period
  let current_d := (current_k + prev_k + prev2_k) / 3
  let prev_d := (prev_k + prev2_k + prev3_k) / 3
  let pair : ℚ × ℚ :=
    if current_k < 20 ∧ current_d < 20 then
      if current_k > prev_k ∧ current_d > prev_d then (0.9, 0.9)
      else if current_k > current_d then (0.7, 0.8)
      else (0.5, 0.6)
    else if current_k < 30 ∧ current_d < 30 then
      (if current_k > prev_k ∧ current_d > prev_d then (0.6, 0.7) else (0.3, 0.5))
    else if current_k > 80 ∧ current_d > 80 then
      if current_k < prev_k ∧ current_d < prev_d then (-0.9, 0.9)
      else if current_k < current_d then (-0.7, 0.8)
      else (-0.3, 0.5)
    else if 30 ≤ current_k ∧ current_k ≤ 70 ∧ current_k > current_d
        ∧ prev_k ≤ prev_d then (0.4, 0.6)
    else
      let k_momentum := current_k - prev_k
      let d_momentum := current_d - prev_d
      if k_momentum > 2 ∧ d_momentum > 1 then (0.2, 0.3)
      else if k_momentum < -2 ∧ d_momentum < -1 then (-0.2, 0.3)
      else (0, 0.1)
  let extremity_factor : ℚ :=
    if current_k < 10 ∨ current_k > 90 then 1.2
    else if current_k < 20 ∨ current_k > 80 then 1.1
    else 1
  (pair.1, min 1 (pair.2 * extremity_factor))

structure RiskMetrics where
  volatility : ℚ
  risk_score : ℚ
  recent_volatility : Option ℚ
  volatility_ratio : Option ℚ
deriving Repr, DecidableEq

/-- `TradingAnalysis.calculate_risk_metrics` (the short-history dict has
    only the two default entries). -/
def calculate_risk_metrics (sq : ℚ → ℚ) (data : List Bar) : RiskMetrics :=
  if data.length < 30 then ⟨0.5, 0.5, Option.none, Option.none⟩ else
  let returns := pctChange (data.map (fun b => b.close))
  let volatility := sampleStd sq returns * sq 252
  let recent_vol := sampleStd sq (lastN 10 returns) * sq 252
  let vol_ratio := if volatility > 0 then recent_vol / volatility else 1
  ⟨volatility, min 1 (volatility * 2), some recent_vol, some vol_ratio⟩

/-! ## Fundamental-ratio signals (basicAnalysis.py)

The provider (`get_yfinance_data`) returns an overview dict with the three
keys modelled below (values may be Python `None`), and balance-sheet /
income-statement dicts whose `quarterlyReports` are lists of string-keyed
numeric reports. -/

structure Overview where
  PERatio : Option ℚ
  PriceToBookRatio : Option ℚ
  ReturnOnEquityTTM : Option ℚ
deriving Repr, DecidableEq

structure BalanceSheet where
  quarterlyReports : List (List (String × ℚ))
deriving Repr, DecidableEq

structure IncomeStatement where
  quarterlyReports : List (List (String × ℚ))
deriving Repr, DecidableEq

/-- `TradingAnalysis.calculate_pe`.  With no overview the `.get` raises
    AttributeError, which the outer handler converts to `(0, 0)`; a `None`
    ratio fails `float()` and the inner handler returns `(0, 0)`. -/
def calculate_pe (overview : Option Overview) : ℚ × ℚ :=
  match overview with
  | Option.none => (0, 0)
  | some ov =>
    match ov.PERatio with
    | Option.none => (0, 0)
    | some pe_ratio =>
      let pe_signal :=
        if pe_ratio > 0 then max (-0.9) (min 0.9 ((20 - pe_ratio) / 12.5))
        else -0.9
      let pe_confidence : ℚ :=
        if pe_ratio < 0 ∨ pe_ratio > 50 then 0.9
        else if pe_ratio < 10 ∨ pe_ratio > 35 then 0.8
        else if pe_ratio < 12 ∨ pe_ratio > 30 then 0.6
        else 0.4
      (pe_signal, pe_confidence)

/-- `TradingAnalysis.calculate_pb`.  With no overview the AttributeError
    escapes the inner handler and the outer handler only prints — the
    function falls off its end and returns Python `None`. -/
def calculate_pb (overview : Option Overview) : Option (ℚ × ℚ) :=
  match overview with
  | Option.none => Option.none
  | some ov =>
    match ov.PriceToBookRatio with
    | Option.none => some (0, 0)
    | some pb_ratio =>
      if pb_ratio > 0 then
        let signal := max (-0.9) (min 0.9 ((2.4 - pb_ratio) / 2))
        some (signal, min 0.9 (|signal| + 0.3))
      else some (-0.9, 0.9)

/-- Possible shapes of the value returned by `TradingAnalysis.calculate_roe`:
    a `(signal, confidence, roe)` triple on the normal paths, a bare
    `(0, 0)` pair from the inner handler, or Python `None` when the outer
    handler falls through (no overview). -/
inductive RoeResult where
  | triple (signal confidence roe : ℚ)
  | pair (signal confidence : ℚ)
  | failed
deriving Repr, DecidableEq

def calculate_roe (overview : Option Overview) : RoeResult :=
  match overview with
  | Option.none => .failed
  | some ov =>
    match ov.ReturnOnEquityTTM with
    | Option.none => .pair 0 0
    | some roe =>
      if roe > 0 then
        let signal := min 0.8 (max (-0.2) ((roe - 10) / 12.5))
        .triple signal (min 0.9 (|signal| * 0.8 + 0.4)) roe
      else .triple (-0.8) 0.9 roe

/-- `TradingAnalysis.calculate_current_ratio` (missing balance sheet or an
    empty report list hits the handler and yields `(0, 0)`). -/
def calculate_current_ratio (balance_sheet : Option BalanceSheet) : ℚ × ℚ :=
  match balance_sheet with
  | Option.none => (0, 0)
  | some bs =>
    match bs.quarterlyReports with
    | [] => (0, 0)
    | quarterly_report :: _ =>
      if quarterly_report.length = 0 then (0, 0)
      else
        let current_assets := pyGet quarterly_report "totalCurrentAssets" 0
        let cl0 := pyGet quarterly_report "totalCurrentLiabilities" 0
        let current_liabilities := if cl0 = 0 then 0.01 else cl0
        let current_ratio := current_assets / current_liabilities
        let signal :=
          if current_ratio ≤ 2 then max (-0.7) ((current_ratio - 0.5) / 1.5 * 0.6)
          else max (-0.1) (0.6 - (current_ratio - 2) * 0.2)
        (signal, min 0.8 (|signal| * 0.8 + 0.3))

/-- `TradingAnalysis.calculate_debt_to_equity`. -/
def calculate_debt_to_equity (balance_sheet : Option BalanceSheet) (roe : ℚ) :
    ℚ × ℚ :=
  match balance_sheet with
  | Option.none => (0, 0)
  | some bs =>
    match bs.quarterlyReports with
    | [] => (0, 0)
    | quarterly_report :: _ =>
      if quarterly_report.length = 0 then (0, 0)
      else
        let total_assets := pyGet quarterly_report "totalAssets" 0
        let total_liabilities := pyGet quarterly_report "totalLiabilities" 0
        let equity0 := total_assets - total_liabilities
        let equity := if equity0 = 0 then 0.01 else equity0
        let total_debt := pyGet quarterly_report "totalDebt" 0
        let debt_to_equity := total_debt / equity
        let s1 :=
          if debt_to_equity ≤ 0.5 then min 0.6 (debt_to_equity * 1.2)
          else max (-0.8) (0.6 - (debt_to_equity - 0.5) * 0.8)
        let signal :=
          if roe > 15 ∧ debt_to_equity < 1 then min 1 (s1 + 0.1)
          else if roe < 5 ∧ debt_to_equity > 0.8 then max (-1) (s1 - 0.2)
          else s1
        let confidence :=
          if debt_to_equity > 2 ∨ debt_to_equity < 0.05 then 0.9
          else min 0.8 (|signal| * 0.6 + 0.4)
        (signal, confidence)

/-- `TradingAnalysis.calculate_weighted_revenue_growth` — the source reads
    the key `totalRevnue` (sic), absent from the provider's reports, so
    `.get` yields the default 0 for every quarter. -/
def calculate_weighted_revenue_growth (quarters : List (List (String × ℚ))) :
    ℚ :=
  let weights : List ℚ := [0.4, 0.3, 0.2, 0.1]
  let yoy_rates := (List.range 4).map (fun i =>
    let current := pyGet (quarters.getD i []) "totalRevnue" 0
    let previous_year0 := pyGet (quarters.getD (i + 4) []) "totalRevnue" 0
    let previous_year := if previous_year0 = 0 then 0.01 else previous_year0
    (current - previous_year) / previous_year * 100)
  ((yoy_rates.zip weights).map (fun rw => rw.1 * rw.2)).sum

/-- `TradingAnalysis.calculate_revenue_growth`. -/
def calculate_revenue_growth (income_statement : Option IncomeStatement) :
    ℚ × ℚ :=
  match income_statement with
  | Option.none => (0, 0)
  | some inc =>
    if inc.quarterlyReports.length < 8 then (0, 0)
    else
      let growth := calculate_weighted_revenue_growth (inc.quarterlyReports.take 8)
      if growth < -10 then (-0.8, 0.8)
      else if growth < 0 then (-0.3, 0.6)
      else if growth < 5 then (0.1, 0.5)
      else if growth < 15 then (0.5, 0.7)
      else if growth < 25 then (0.7, 0.8)
      else (0.8, 0.7)

/-- `TradingAnalysis.earnings_growth_calculator` (sign flips special-cased;
    the inner zero guard of the final branch is dead since previous > 0
    there but is kept from the source). -/
def earnings_growth_calculator (current previous : ℚ) : ℚ :=
  if previous ≤ 0 ∧ current > 0 then 100
  else if previous > 0 ∧ current ≤ 0 then -100
  else if previous ≤ 0 ∧ current ≤ 0 then 0
  else
    let previous := if previous = 0 then 0.01 else previous
    (current - previous) / previous * 100

/-- `TradingAnalysis.calculate_earnings_growth` — reads the key
    `retainedEarnings`, absent from the provider's income reports. -/
def calculate_earnings_growth (income_statement : Option IncomeStatement) :
    ℚ × ℚ :=
  match income_statement with
  | Option.none => (0, 0)
  | some inc =>
    if inc.quarterlyReports.length < 8 then (0, 0)
    else
      let quarters := inc.quarterlyReports.take 8
      let yoy_rates := (List.range 4).map (fun i =>
        earnings_growth_calculator (pyGet (quarters.getD i []) "retainedEarnings" 0)
          (pyGet (quarters.getD (i + 4) []) "retainedEarnings" 0))
      let filtered_rates := yoy_rates.filter (fun r => -200 < r ∧ r < 200)
      let growth_rate :=
        if filtered_rates.length = 0 then 0
        else filtered_rates.sum / filtered_rates.length
      if growth_rate < -25 then (-0.9, 0.9)
      else if growth_rate < -10 then (-0.5, 0.7)
      else if growth_rate < 0 then (-0.2, 0.5)
      else if growth_rate < 10 then (0.2, 0.6)
      else if growth_rate < 20 then (0.6, 0.8)
      else if growth_rate < 40 then (0.8, 0.8)
      else (0.7, 0.6)

/-! ## Signal weights and compositing (TradingAnalysis.analyze_stock) -/

structure TechnicalWeights where
  sma_crossover : ℚ
  rsi_signal : ℚ
  volume_signal : ℚ
  macd_signal : ℚ
  bollinger_signal : ℚ
  stochastic_signal : ℚ
deriving Repr, DecidableEq

structure FundamentalWeights where
  pe_ratio : ℚ
  rev_growth : ℚ
  earnings_growth : ℚ
  roe_signal : ℚ
  debt_to_equity : ℚ
  pb_ratio : ℚ
  current_ratio : ℚ
deriving Repr, DecidableEq

structure LayerWeights where
  technical : ℚ
  fundamental : ℚ
deriving Repr, DecidableEq

def initial_technical_weights : TechnicalWeights :=
  ⟨0.22, 0.18, 0.13, 0.18, 0.14, 0.15⟩

def initial_fundamental_weights : FundamentalWeights :=
  ⟨0.20, 0.15, 0.18, 0.15, 0.12, 0.12, 0.08⟩

def layer_weights_high_vol : LayerWeights := ⟨0.7, 0.3⟩

def layer_weights_low_vol : LayerWeights := ⟨0.3, 0.7⟩

def technical_signal_composite (sma rsi vol macd boll stoch : ℚ × ℚ)
    (tw : TechnicalWeights) : ℚ :=
  sma.1 * sma.2 * tw.sma_crossover + rsi.1 * rsi.2 * tw.rsi_signal +
  vol.1 * vol.2 * tw.volume_signal + macd.1 * macd.2 * tw.macd_signal +
  boll.1 * boll.2 * tw.bollinger_signal + stoch.1 * stoch.2 * tw.stochastic_signal

def technical_confidence_composite (sma rsi vol macd boll stoch : ℚ × ℚ)
    (tw : TechnicalWeights) : ℚ :=
  sma.2 * tw.sma_crossover + rsi.2 * tw.rsi_signal + vol.2 * tw.volume_signal +
  macd.2 * tw.macd_signal + boll.2 * tw.bollinger_signal +
  stoch.2 * tw.stochastic_signal

def fundamental_signal_composite (pe pb roe cur dte rev earn : ℚ × ℚ)
    (fw : FundamentalWeights) : ℚ :=
  pe.1 * pe.2 * fw.pe_ratio + pb.1 * pb.2 * fw.pb_ratio +
  roe.1 * roe.2 * fw.roe_signal + cur.1 * cur.2 * fw.current_ratio +
  dte.1 * dte.2 * fw.debt_to_equity + rev.1 * rev.2 * fw.rev_growth +
  earn.1 * earn.2 * fw.earnings_growth

def fundamental_confidence_composite (pe pb roe cur dte rev earn : ℚ × ℚ)
    (fw : FundamentalWeights) : ℚ :=
  pe.2 * fw.pe_ratio + pb.2 * fw.pb_ratio + roe.2 * fw.roe_signal +
  cur.2 * fw.current_ratio + dte.2 * fw.debt_to_equity +
  rev.2 * fw.rev_growth + earn.2 * fw.earnings_growth

def total_signal_combine (technical_signal fundamental_signal : ℚ)
    (lw : LayerWeights) : ℚ :=
  technical_signal * lw.technical + fundamental_signal * lw.fundamental

/-- Source lines 511-514: the layer confidences and the layer weights are
    ADDED (`+`), where the parallel `total_signal` multiplies each
    confidence by its weight. -/
def total_confidence_combine (technical_confidence fundamental_confidence : ℚ)
    (lw : LayerWeights) : ℚ :=
  technical_confidence + lw.technical + fundamental_confidence + lw.fundamental

structure AnalysisOutput where
  current_price : ℚ
  total_signal : ℚ
  adjusted_signal : ℚ
  confidence : ℚ
  recommendation : String
  signals : List (String × ℚ × ℚ)
  risk_metrics : RiskMetrics
deriving Repr, DecidableEq

/-- `TradingAnalysis.analyze_stock` with the fetched inputs passed in.
    Missing or short price data skips the symbol (`.ok none`); failed
    fundamentals do NOT skip: the code only logs and pushes on, and a
    missing overview makes the later tuple unpacking of `calculate_pb` /
    `calculate_roe` raise (TypeError unpacking `None`, ValueError unpacking
    a pair into three names), which nothing in `analyze_stock` or
    `run_analysis` catches. -/
def analyze_stock (sq : ℚ → ℚ) (data : Option (List Bar))
    (overview : Option Overview) (balance_sheet : Option BalanceSheet)
    (income_statement : Option IncomeStatement) (tw : TechnicalWeights)
    (fw : FundamentalWeights) (lw : LayerWeights)
    (buy_threshold sell_threshold : ℚ) :
    Except String (Option AnalysisOutput) :=
  match data with
  | Option.none => .ok Option.none
  | some d =>
  if d.length < 50 then .ok Option.none else
  let sma := calculate_sma d
  let rsi := calculate_rsi d
  let vol := calculate_volume d
  let macd := calculate_macd d
  let boll := calculate_bollinger_bands sq d
  let stoch := calculate_stochastic d
  let pe := calculate_pe overview
  match calculate_pb overview with
  | Option.none => .error "TypeError"
  | some pb =>
  match calculate_roe overview with
  | .failed => .error "TypeError"
  | .pair _ _ => .error "ValueError"
  | .triple roe_signal roe_confidence roe =>
  let cur := calculate_current_ratio balance_sheet
  let dte := calculate_debt_to_equity balance_sheet roe
  let rev := calculate_revenue_growth income_statement
  let earn := calculate_earnings_growth income_statement
  let risk := calculate_risk_metrics sq d
  let technical_signal := technical_signal_composite sma rsi vol macd boll stoch tw
  let fundamental_signal :=
    fundamental_signal_composite pe pb (roe_signal, roe_confidence) cur dte rev earn fw
  let technical_confidence := technical_confidence_composite sma rsi vol macd boll stoch tw
  let fundamental_confidence :=
    fundamental_confidence_composite pe pb (roe_signal, roe_confidence) cur dte rev earn fw
  let total_signal := total_signal_combine technical_signal fundamental_signal lw
  let total_confidence := total_confidence_combine technical_confidence fundamental_confidence lw
  let risk_adjustment := 1 - risk.risk_score * 0.3
  let adjusted_signal := total_signal * risk_adjustment
  let recommendation :=
    if adjusted_signal > buy_threshold ∧ total_confidence > 0.5 then "BUY"
    else if adjusted_signal < sell_threshold ∧ total_confidence > 0.5 then "SELL"
    else "HOLD"
  .ok (some
    { current_price := last1 (d.map (fun b => b.close))
      total_signal := total_signal
      adjusted_signal := adjusted_signal
      confidence := total_confidence
      recommendation := recommendation
      signals := [("sma", sma), ("rsi", rsi), ("macd", macd), ("bollinger", boll),
                  ("stochastic", stoch), ("volume", vol), ("pe", pe), ("pb", pb),
                  ("roe", (roe_signal, roe_confidence)), ("current_ratio", cur),
                  ("debt_to_equity", dte), ("rev_growth", rev),
                  ("earnings_growth", earn)]
      risk_metrics := risk })

/-- C9: every technical indicator returns exactly (0, 0), without raising,
    on a price series shorter than its minimum length (50 bars for the
    moving-average signal, 15 for RSI, 20 for volume, 35 for MACD, 25 for
    Bollinger, 17 for the stochastic oscillator). -/
theorem indicators_neutral_on_short_input :
    (∀ data : List Bar, data.length < 50 → calculate_sma data = (0, 0))
    ∧ (∀ data : List Bar, data.length < 15 → calculate_rsi data = (0, 0))
    ∧ (∀ data : List Bar, data.length < 20 → calculate_volume data = (0, 0))
    ∧ (∀ data : List Bar, data.length < 35 → calculate_macd data = (0, 0))
    ∧ (∀ (sq : ℚ → ℚ) (data : List Bar), data.length < 25 →
        calculate_bollinger_bands sq data = (0, 0))
    ∧ (∀ data : List Bar, data.length < 17 → calculate_stochastic data = (0, 0)) := by
  refine ⟨?_, ?_, ?_, ?_, ?_, ?_⟩
  · intro data h
    unfold calculate_sma
    rw [if_pos h]
  · intro data h
    unfold calculate_rsi
    rw [if_pos h]
  · intro data h
    unfold calculate_volume
    rw [if_pos h]
  · intro data h
    unfold calculate_macd
    rw [if_pos h]
  · intro sq data h
    unfold calculate_bollinger_bands
    rw [if_pos (by omega)]
  · intro data h
    unfold calculate_stochastic
    rw [if_pos (by omega)]

/-- Concrete instantiation of `indicators_neutral_on_short_input` at the
    empty series. -/
theorem indicators_neutral_on_short_input_witness :
    calculate_sma [] = (0, 0) ∧ calculate_rsi [] = (0, 0)
    ∧ calculate_volume [] = (0, 0) ∧ calculate_macd [] = (0, 0)
    ∧ calculate_bollinger_bands (fun q => q) [] = (0, 0)
    ∧ calculate_stochastic [] = (0, 0) :=
  ⟨indicators_neutral_on_short_input.1 [] (by simp),
   indicators_neutral_on_short_input.2.1 [] (by simp),
   indicators_neutral_on_short_input.2.2.1 [] (by simp),
   indicators_neutral_on_short_input.2.2.2.1 [] (by simp),
   indicators_neutral_on_short_input.2.2.2.2.1 (fun q => q) [] (by simp),
   indicators_neutral_on_short_input.2.2.2.2.2 [] (by simp)⟩

/-- C1: the total confidence produced by the compositing step of
    `analyze_stock` is not confined to [0, 1] — the source adds the layer
    weights to the layer confidences instead of blending by them, so with
    all thirteen indicator confidences at 0.5 and the initial layer weights
    (0.7, 0.3) the total confidence is 2. -/
theorem total_confidence_not_in_unit_interval :
    total_confidence_combine
        (technical_confidence_composite (0, 0.5) (0, 0.5) (0, 0.5) (0, 0.5)
          (0, 0.5) (0, 0.5) initial_technical_weights)
        (fundamental_confidence_composite (0, 0.5) (0, 0.5) (0, 0.5) (0, 0.5)
          (0, 0.5) (0, 0.5) (0, 0.5) initial_fundamental_weights)
        layer_weights_high_vol = 2
    ∧ ¬(total_confidence_combine
        (technical_confidence_composite (0, 0.5) (0, 0.5) (0, 0.5) (0, 0.5)
          (0, 0.5) (0, 0.5) initial_technical_weights)
        (fundamental_confidence_composite (0, 0.5) (0, 0.5) (0, 0.5) (0, 0.5)
          (0, 0.5) (0, 0.5) (0, 0.5) initial_fundamental_weights)
        layer_weights_high_vol ≤ 1) := by
  constructor <;>
    norm_num [total_confidence_combine, technical_confidence_composite,
      fundamental_confidence_composite, initial_technical_weights,
      initial_fundamental_weights, layer_weights_high_vol]

/-- C6: a missing or short (< 50 bars) price history skips the symbol
    without raising (`analyze_stock` returns None); but failed fundamentals
    do not skip — a missing overview raises a TypeError out of the scoring
    pass (the handler of `calculate_pb` returns Python None, whose
    unpacking fails), and a missing balance sheet or income statement still
    scores the symbol, with the affected ratio signals at (0, 0). -/
theorem analyze_stock_skip_and_crash :
    (∀ (sq : ℚ → ℚ) (ov : Option Overview) (bs : Option BalanceSheet)
        (inc : Option IncomeStatement) (tw : TechnicalWeights)
        (fw : FundamentalWeights) (lw : LayerWeights) (bt st : ℚ),
        analyze_stock sq Option.none ov bs inc tw fw lw bt st = .ok Option.none)
    ∧ (∀ (sq : ℚ → ℚ) (d : List Bar) (ov : Option Overview)
        (bs : Option BalanceSheet) (inc : Option IncomeStatement)
        (tw : TechnicalWeights) (fw : FundamentalWeights) (lw : LayerWeights)
        (bt st : ℚ), d.length < 50 →
        analyze_stock sq (some d) ov bs inc tw fw lw bt st = .ok Option.none)
    ∧ (∀ (sq : ℚ → ℚ) (d : List Bar) (bs : Option BalanceSheet)
        (inc : Option IncomeStatement) (tw : TechnicalWeights)
        (fw : FundamentalWeights) (lw : LayerWeights) (bt st : ℚ),
        50 ≤ d.length →
        analyze_stock sq (some d) Option.none bs inc tw fw lw bt st
          = .error "TypeError")
    ∧ (∀ (sq : ℚ → ℚ) (d : List Bar) (tw : TechnicalWeights)
        (fw : FundamentalWeights) (lw : LayerWeights) (bt st : ℚ),
        50 ≤ d.length →
        ∃ r, analyze_stock sq (some d) (some ⟨some 20, some 2, some 20⟩)
          Option.none Option.none tw fw lw bt st = .ok (some r)) := by
  refine ⟨fun sq ov bs inc tw fw lw bt st => rfl, ?_, ?_, ?_⟩
  · intro sq d ov bs inc tw fw lw bt st h
    simp only [analyze_stock]
    rw [if_pos h]
  · intro sq d bs inc tw fw lw bt st h
    simp only [analyze_stock]
    rw [if_neg (by omega)]
    rfl
  · intro sq d tw fw lw bt st h
    have hpb : calculate_pb (some ⟨some 20, some 2, some 20⟩)
        = some (0.2, 0.5) := by
      norm_num [calculate_pb, min_def, max_def, abs_of_nonneg]
    have hroe : calculate_roe (some ⟨some 20, some 2, some 20⟩)
        = .triple 0.8 0.9 20 := by
      norm_num [calculate_roe, min_def, max_def, abs_of_nonneg]
    simp only [analyze_stock]
    rw [if_neg (by omega), hpb, hroe]
    exact ⟨_, rfl⟩

/-- Concrete instantiation of `analyze_stock_skip_and_crash`: a one-bar
    series is skipped; a 60-bar series with no overview raises. -/
theorem analyze_stock_skip_and_crash_witness :
    analyze_stock (fun q => q) (some [⟨1, 1, 1, 1, 1⟩]) Option.none
        Option.none Option.none initial_technical_weights
        initial_fundamental_weights layer_weights_high_vol 0.3 (-0.3)
      = .ok Option.none
    ∧ analyze_stock (fun q => q)
        (some (List.replicate 60 (⟨1, 1, 1, 1, 1⟩ : Bar))) Option.none
        Option.none Option.none initial_technical_weights
        initial_fundamental_weights layer_weights_high_vol 0.3 (-0.3)
      = .error "TypeError" :=
  ⟨analyze_stock_skip_and_crash.2.1 _ _ _ _ _ _ _ _ _ _ (by simp),
   analyze_stock_skip_and_crash.2.2.1 _ _ _ _ _ _ _ _ _ (by simp)⟩

/-! ## Market regime detector (regime_detector.py) and the
update_market_regime lifecycle (basicAnalysis.py lines 70-128) -/

/-- Shapes of the value returned by
    `MarketRegimeDetector.calculate_vix_regime`: the four-tuple of the
    normal paths, or the bare `('moderate', 0.5)` pair of the missing-data
    early return.  A momentum of `none` stands for the NaN produced when
    fewer than 10 bars feed the rolling mean (NaN comparisons are false);
    the degenerate zero-mean division is folded into the same case. -/
inductive VixResult where
  | quad (regime : String) (confidence : ℚ) (current_vix : ℚ)
      (momentum : Option ℚ)
  | pair (regime : String) (confidence : ℚ)
deriving Repr, DecidableEq

def calculate_vix_regime (vix_data : Option (List ℚ)) : VixResult :=
  match vix_data with
  | Option.none => .pair "moderate" 0.5
  | some closes =>
    if closes.length = 0 then .pair "moderate" 0.5
    else
      let current_vix := last1 closes
      let vix_momentum : Option ℚ :=
        if closes.length < 10 then Option.none
        else
          let vix_ma_10 := listMean (lastN 10 closes)
          if vix_ma_10 = 0 then Option.none
          else some ((current_vix - vix_ma_10) / vix_ma_10)
      let momLE0 : Bool := match vix_momentum with
        | some m => m ≤ 0
        | Option.none => false
      let momGE0 : Bool := match vix_momentum with
        | some m => m ≥ 0
        | Option.none => false
      if current_vix < 15 then
        .quad "low_vol" (if momLE0 then 0.9 else 0.7) current_vix vix_momentum
      else if current_vix > 35 then
        .quad "high_vol" (if momGE0 then 0.9 else 0.7) current_vix vix_momentum
      else if current_vix > 25 then
        .quad "elevated_vol" 0.8 current_vix vix_momentum
      else
        .quad "moderate_vol" 0.6 current_vix vix_momentum

/-- `MarketRegimeDetector.calculate_market_breadth_regime`: breadth data is
    the per-index close series (only nonempty downloads are kept by
    `get_market_breadth_data`); `above_sma` is false while the 20-bar
    window is incomplete (NaN comparison). -/
def calculate_market_breadth_regime (breadth_data : List (String × List ℚ)) :
    String × ℚ × List (String × Bool × ℚ) :=
  if breadth_data.length = 0 then ("neutral", 0.5, [])
  else
    let breadth_metrics := breadth_data.map (fun sd =>
      let closes := sd.2
      let above_sma :=
        decide (20 ≤ closes.length ∧ last1 closes > listMean (lastN 20 closes))
      let price_20d_ago :=
        if 20 ≤ closes.length then closes.getD (closes.length - 20) 0
        else closes.getD 0 0
      let momentum := (last1 closes - price_20d_ago) / price_20d_ago
      (sd.1, above_sma, momentum))
    let above_sma_counts := (breadth_metrics.filter (fun m => m.2.1)).length
    let breadth_ratio := (above_sma_counts : ℚ) / (breadth_data.length : ℚ)
    if breadth_ratio ≥ 0.8 then ("strong_breadth", 0.8, breadth_metrics)
    else if breadth_ratio ≥ 0.6 then ("neutral_breadth", 0.6, breadth_metrics)
    else ("weak_breadth", 0.8, breadth_metrics)

/-- `MarketRegimeDetector.get_sector_rotation_data`: `sector_performance`
    is initialized as the EMPTY TUPLE `()`, so the first per-ETF item
    assignment raises TypeError, caught by the handler, which returns
    None; when every download is empty the loop never assigns and the
    empty tuple itself is returned.  Both results are falsy downstream. -/
def get_sector_rotation_data (downloads : List (List ℚ)) :
    Option (List (String × ℚ)) :=
  if downloads.any (fun d => 0 < d.length) then Option.none else some []

structure SectorMetrics where
  leaders : List (String × ℚ)
  laggards : List (String × ℚ)
  dispersion : ℚ
  range : ℚ
deriving Repr, DecidableEq

/-- `MarketRegimeDetector.calculate_sector_regime` (the two falsy early
    returns yield the empty metrics dict, modelled as `none`). -/
def calculate_sector_regime (sq : ℚ → ℚ)
    (sector_data : Option (List (String × ℚ))) :
    String × ℚ × Option SectorMetrics :=
  match sector_data with
  | Option.none => ("balanced", 0.5, Option.none)
  | some [] => ("balanced", 0.5, Option.none)
  | some (r0 :: rest) =>
    let sd := r0 :: rest
    let returns := sd.map (fun kv => kv.2)
    let return_std := popStd sq returns
    let return_range := listMax returns - listMin returns
    let sorted_sectors := sd.mergeSort (fun a b => a.2 ≥ b.2)
    let leaders := sorted_sectors.take 3
    let laggards := sorted_sectors.drop (sorted_sectors.length - 3)
    let lbl_conf : String × ℚ :=
      if return_range > 0.15 then
        if listMax returns > 0.05 then ("risk_on_rotation", 0.8)
        else ("risk_off_rotation", 0.8)
      else ("balanced", 0.6)
    (lbl_conf.1, lbl_conf.2, some ⟨leaders, laggards, return_std, return_range⟩)

/-- The regime decision table of `determine_overall_regime` (label,
    technical weight, fundamental weight), including the source's spelling
    of the volatility labels. -/
def regime_decision (vix_regime breadth_regime sector_regime : String) :
    String × ℚ × ℚ :=
  if vix_regime == "high_vol"
      ∨ (vix_regime == "elevated_vol" ∧ breadth_regime == "weak_breadth") then
    ("high_volitility", 0.71, 0.29)
  else if vix_regime == "low_vol"
      ∧ (breadth_regime == "strong_breadth" ∨ breadth_regime == "neutral_breadth") then
    ("low_volitility", 0.29, 0.71)
  else if breadth_regime == "strong_breadth" ∧ sector_regime == "risk_on_rotation" then
    ("trending_bullish", 0.625, 0.375)
  else if breadth_regime == "weak_breadth" ∧ sector_regime == "risk_off_rotation" then
    ("trending_bearish", 0.75, 0.25)
  else ("transitional", 0.5, 0.5)

structure RegimeComponents where
  vix_regime : String
  vix_confidence : ℚ
  current_vix : ℚ
  momentum : Option ℚ
  breadth_regime : String
  breadth_confidence : ℚ
  breadth_metrics : List (String × Bool × ℚ)
  sector_regime : String
  sector_confidence : ℚ
  sector_metrics : Option SectorMetrics
deriving Repr, DecidableEq

inductive RVal where
  | str (s : String)
  | num (q : ℚ)
  | weights (technical fundamental : ℚ)
  | comps (c : RegimeComponents)
  | time (t : ℚ)
deriving Repr, DecidableEq

/-- The regime-analysis dict built by `determine_overall_regime`. -/
def RegimeDict := List (String × RVal)

/-- `MarketRegimeDetector.determine_overall_regime` over the provider
    outputs.  When the VIX fetch fails, `calculate_vix_regime` returns a
    2-tuple and the 4-name unpacking raises ValueError. -/
def determine_overall_regime (sq : ℚ → ℚ) (vix_data : Option (List ℚ))
    (breadth_data : List (String × List ℚ)) (sector_downloads : List (List ℚ))
    (now : ℚ) : Except String RegimeDict :=
  match calculate_vix_regime vix_data with
  | .pair _ _ => .error "ValueError"
  | .quad vix_regime vix_conf current_vix vix_mom =>
    let breadth := calculate_market_breadth_regime breadth_data
    let sector := calculate_sector_regime sq
      (get_sector_rotation_data sector_downloads)
    let overall_confidence :=
      vix_conf * 0.4 + breadth.2.1 * 0.35 + sector.2.1 * 0.25
    let decision := regime_decision vix_regime breadth.1 sector.1
    .ok [("overall_regime", .str decision.1),
         ("confidence", .num overall_confidence),
         ("strategy_weights", .weights decision.2.1 decision.2.2),
         ("components", .comps ⟨vix_regime, vix_conf, current_vix, vix_mom,
            breadth.1, breadth.2.1, breadth.2.2, sector.1, sector.2.1,
            sector.2.2⟩),
         ("timestamp", .time now)]

/-- Scorer-side state touched by `TradingAnalysis.update_market_regime`;
    timestamps are in days. -/
structure AnalysisState where
  layer_weights : LayerWeights
  current_regime_analysis : Option RegimeDict
  last_regime_check : Option ℚ

/-- Recompute path of `update_market_regime`: the detector result is
    cached and its `strategy_weights` installed, then the lookup
    `self.current_regime_analysis['regime']` raises KeyError — the dict key
    is `overall_regime` — and even past that the next call names the
    misspelled method `adjust_technical_weights_by_regieme`. -/
def update_market_regime_recompute (st : AnalysisState) (now : ℚ)
    (sq : ℚ → ℚ) (vix_data : Option (List ℚ))
    (breadth_data : List (String × List ℚ))
    (sector_downloads : List (List ℚ)) :
    Except String (AnalysisState × Option RegimeDict) :=
  match determine_overall_regime sq vix_data breadth_data sector_downloads now with
  | .error e => .error e
  | .ok analysis =>
    let st1 := { st with current_regime_analysis := some analysis,
                         last_regime_check := some now }
    let st2 := match dictFind analysis "strategy_weights" with
      | some (.weights t f) => { st1 with layer_weights := ⟨t, f⟩ }
      | _ => st1
    match dictFind analysis "regime" with
    | Option.none => .error "KeyError: regime"
    | some _ =>
      let _ := st2
      .error "AttributeError: adjust_technical_weights_by_regime"

/-- `TradingAnalysis.update_market_regime`: within 24 hours of the last
    check (`timedelta.days < 1`, i.e. the floor of the elapsed days is
    zero) and without `force_update` the cached analysis is returned. -/
def update_market_regime (st : AnalysisState) (now : ℚ) (force_update : Bool)
    (sq : ℚ → ℚ) (vix_data : Option (List ℚ))
    (breadth_data : List (String × List ℚ))
    (sector_downloads : List (List ℚ)) :
    Except String (AnalysisState × Option RegimeDict) :=
  match st.last_regime_check with
  | some t =>
    if force_update = false ∧ ⌊now - t⌋ < 1 then
      .ok (st, st.current_regime_analysis)
    else
      update_market_regime_recompute st now sq vix_data breadth_data
        sector_downloads
  | Option.none =>
    update_market_regime_recompute st now sq vix_data breadth_data
      sector_downloads

lemma determine_no_regime_key (sq : ℚ → ℚ) (v : Option (List ℚ))
    (b : List (String × List ℚ)) (s : List (List ℚ)) (now : ℚ)
    (d : RegimeDict) (h : determine_overall_regime sq v b s now = .ok d) :
    dictFind d "regime" = Option.none := by
  unfold determine_overall_regime at h
  cases hv : calculate_vix_regime v with
  | pair r c => rw [hv] at h; cases h
  | quad r c cv m =>
    rw [hv] at h
    injection h with h
    subst h
    simp [dictFind]

lemma recompute_always_errors (st : AnalysisState) (now : ℚ) (sq : ℚ → ℚ)
    (v : Option (List ℚ)) (b : List (String × List ℚ))
    (s : List (List ℚ)) :
    ∃ e, update_market_regime_recompute st now sq v b s = .error e := by
  unfold update_market_regime_recompute
  cases hdet : determine_overall_regime sq v b s now with
  | error e => exact ⟨e, rfl⟩
  | ok analysis =>
    have hkey := determine_no_regime_key sq v b s now analysis hdet
    exact ⟨"KeyError: regime", by simp only [hkey]⟩

/-- C3: the daily caching works — within one day of the last check and
    without `force_update`, `update_market_regime` returns the cached
    analysis untouched; but every recomputation path raises before
    returning: either the VIX early-return 2-tuple fails the 4-name
    unpacking (ValueError), or the fresh analysis dict is indexed with the
    key `regime` which it does not contain (its key is `overall_regime`),
    a KeyError — and past that the code would call the misspelled
    `adjust_technical_weights_by_regieme`. -/
theorem update_market_regime_cached_then_crash :
    (∀ (st : AnalysisState) (now t : ℚ) (sq : ℚ → ℚ)
        (v : Option (List ℚ)) (b : List (String × List ℚ))
        (s : List (List ℚ)),
        st.last_regime_check = some t → 0 ≤ now - t → now - t < 1 →
        update_market_regime st now false sq v b s
          = .ok (st, st.current_regime_analysis))
    ∧ (∀ (st : AnalysisState) (now : ℚ) (sq : ℚ → ℚ)
        (v : Option (List ℚ)) (b : List (String × List ℚ))
        (s : List (List ℚ)),
        ∃ e, update_market_regime st now true sq v b s = .error e) := by
  constructor
  · intro st now t sq v b s hlast h0 h1
    have hfloor : ⌊now - t⌋ = 0 :=
      Int.floor_eq_zero_iff.mpr (Set.mem_Ico.mpr ⟨h0, h1⟩)
    simp only [update_market_regime, hlast]
    rw [if_pos ⟨trivial, by rw [hfloor]; norm_num⟩]
  · intro st now sq v b s
    obtain ⟨e, he⟩ := recompute_always_errors st now sq v b s
    refine ⟨e, ?_⟩
    cases hlast : st.last_regime_check with
    | none => simp only [update_market_regime, hlast]; exact he
    | some t =>
      simp only [update_market_regime, hlast]
      rw [if_neg (by simp)]
      exact he

theorem update_market_regime_cached_then_crash_witness :
    ((⟨layer_weights_high_vol, some [], some 10⟩ : AnalysisState).last_regime_check
        = some 10)
    ∧ ((0 : ℚ) ≤ (10.5 : ℚ) - 10) ∧ ((10.5 : ℚ) - 10 < 1)
    ∧ update_market_regime ⟨layer_weights_high_vol, some [], some 10⟩ 10.5
        false (fun q => q) Option.none [] []
        = .ok (⟨layer_weights_high_vol, some [], some 10⟩, some []) := by
  refine ⟨rfl, by norm_num, by norm_num, ?_⟩
  exact update_market_regime_cached_then_crash.1
    ⟨layer_weights_high_vol, some [], some 10⟩ 10.5 10 (fun q => q)
    Option.none [] [] rfl (by norm_num) (by norm_num)

lemma sector_regime_always_balanced (sq : ℚ → ℚ)
    (downloads : List (List ℚ)) :
    (calculate_sector_regime sq (get_sector_rotation_data downloads)).1
      = "balanced" := by
  cases h : downloads.any (fun d => 0 < d.length) <;>
    simp [get_sector_rotation_data, h, calculate_sector_regime]

lemma decision_balanced_not_trending (vl bl : String) :
    (regime_decision vl bl "balanced").1 ≠ "trending_bullish"
    ∧ (regime_decision vl bl "balanced").1 ≠ "trending_bearish" := by
  refine ⟨?_, ?_⟩ <;>
    (unfold regime_decision
     split
     · simp
     · split
       · simp
       · split
         · simp_all
         · split
           · simp_all
           · simp)

/-- C10: the sector-rotation regime is always `balanced` (the tuple-typed
    accumulator makes `get_sector_rotation_data` return a falsy value on
    every input), and with sector = `balanced` the decision table can
    never produce `trending_bullish` or `trending_bearish`: whenever
    `determine_overall_regime` returns an analysis dict, its
    `overall_regime` is not a trending label. -/
theorem sector_always_balanced_no_trending :
    (∀ (sq : ℚ → ℚ) (downloads : List (List ℚ)),
        (calculate_sector_regime sq (get_sector_rotation_data downloads)).1
          = "balanced")
    ∧ (∀ (sq : ℚ → ℚ) (v : Option (List ℚ))
        (b : List (String × List ℚ)) (s : List (List ℚ)) (now : ℚ)
        (d : RegimeDict),
        determine_overall_regime sq v b s now = .ok d →
        dictFind d "overall_regime" ≠ some (.str "trending_bullish")
        ∧ dictFind d "overall_regime" ≠ some (.str "trending_bearish")) := by
  constructor
  · exact sector_regime_always_balanced
  · intro sq v b s now d h
    unfold determine_overall_regime at h
    cases hv : calculate_vix_regime v with
    | pair r c => rw [hv] at h; cases h
    | quad r c cv m =>
      rw [hv] at h
      injection h with h
      subst h
      have hb := sector_regime_always_balanced sq s
      constructor
      · simp only [hb, dictFind, List.find?]
        simp
        exact (decision_balanced_not_trending _ _).1
      · simp only [hb, dictFind, List.find?]
        simp
        exact (decision_balanced_not_trending _ _).2

def sampleRegimeDict : RegimeDict :=
  [("overall_regime", .str "transitional"),
   ("confidence", .num 0.54),
   ("strategy_weights", .weights 0.5 0.5),
   ("components", .comps ⟨"moderate_vol", 0.6, 20, Option.none, "neutral",
      0.5, [], "balanced", 0.5, Option.none⟩),
   ("timestamp", .time 0)]

theorem sector_always_balanced_no_trending_witness :
    determine_overall_regime (fun q => q) (some [20]) [] [] 0
      = .ok sampleRegimeDict
    ∧ dictFind sampleRegimeDict "overall_regime"
        ≠ some (.str "trending_bullish") := by
  have hdet : determine_overall_regime (fun q => q) (some [20]) [] [] 0
      = .ok sampleRegimeDict := by
    norm_num +decide [determine_overall_regime, calculate_vix_regime,
      calculate_market_breadth_regime, calculate_sector_regime,
      get_sector_rotation_data, regime_decision, sampleRegimeDict,
      last1, lastN, listMean]
  exact ⟨hdet,
    (sector_always_balanced_no_trending.2 (fun q => q) (some [20]) [] [] 0
      sampleRegimeDict hdet).1⟩

end Quant
